import Mathlib

/-!
Verification of the circulation coordinator of the oratory-hearts-library
repository (`src/app/lending/service.py`, `src/app/models.py`,
`src/app/admin/routes_loans.py`) against its natural-language specification.

The Python code is shallowly embedded: the SQLAlchemy rows become Lean
structures, the session becomes an explicit `LibState` carried through every
operation, timestamps become `Int` POSIX seconds, and the external
collaborators (the PDF artifact generator and the e-mail delivery service)
become oracle functions.  The embedding is sequential: the process-local
mutex and the SQLite `BEGIN IMMEDIATE` transaction in `checkout_book` exist
only to make the operation atomic, so a single atomic step models one
checkout.  The write-only audit sink (`log_event`) is not modelled.
-/

namespace OratoryLibrary

/-- Python `timedelta(days=d)` as an offset on POSIX-second timestamps. -/
def daysToDelta (d : Int) : Int := d * 86400

/-- Python `str.strip()`: drop whitespace from both ends.  (`String.trim`
computes the same string but is opaque to kernel reduction, so the model
spells the operation out over the character list.) -/
def pyStrip (s : String) : String :=
  ⟨(((s.data.dropWhile Char.isWhitespace).reverse).dropWhile Char.isWhitespace).reverse⟩

/-- The fields of `User` (models.py) read by the circulation code. -/
structure User where
  id : Nat
  isActiveAccount : Bool
  isBlocked : Bool
  role : String
  deriving DecidableEq

/-- `User.can_borrow` (models.py): active account, not blocked, role `patron`. -/
def User.can_borrow (u : User) : Bool :=
  u.isActiveAccount && !u.isBlocked && u.role == "patron"

/-- The fields of `Book` (models.py) read by the circulation code. -/
structure Book where
  id : Nat
  title : String
  author : String
  ownedCopies : Int
  loanDurationOverride : Option Int
  isVisible : Bool
  isDisabled : Bool
  restrictedAccess : Bool
  masterFilename : Option String
  deriving DecidableEq

/-- The fields of `Loan` (models.py) used by the circulation code. -/
structure Loan where
  id : Nat
  userId : Nat
  bookId : Nat
  borrowedAt : Int
  dueAt : Int
  returnedAt : Option Int
  isActive : Bool
  invalidated : Bool
  invalidatedReason : Option String
  circulationFilename : Option String
  renewalCount : Int
  maxRenewals : Int
  reminderSent : Bool
  expirationNoticeSent : Bool
  bookTitleSnapshot : Option String
  bookAuthorSnapshot : Option String
  deriving DecidableEq

/-- `Loan.is_expired` (models.py): `_utcnow() >= due`. -/
def Loan.is_expired (l : Loan) (now : Int) : Bool := decide (l.dueAt ≤ now)

/-- `WaitlistEntry` (models.py). -/
structure WaitlistEntry where
  id : Nat
  userId : Nat
  bookId : Nat
  createdAt : Int
  notifiedAt : Option Int
  isFulfilled : Bool
  deriving DecidableEq

/-- The database session state: the rows of the tables the circulation code
touches, plus the set of circulation artifact files removed from disk
(`_delete_circulation_file`). -/
structure LibState where
  users : List User
  books : List Book
  loans : List Loan
  waitlist : List WaitlistEntry
  deletedFiles : List String
  deriving DecidableEq

/-- `current_app.config` keys read by the circulation code; `none` means the
key is unset so `config.get(key, default)` yields the code's default. -/
structure Config where
  maxLoansPerPatron : Option Int
  maxRenewals : Option Int
  defaultLoanDays : Option Int
  deriving DecidableEq

/-- External collaborators, as oracles keyed by row ids:
`generateCirculation` is `pdf_service.generate_circulation_copy` (loan id ↦
artifact filename, `none` = any exception); `sendWaitlist` and
`sendExpiration` are the e-mail sends (an exception and a `False` return
have the same effect in every caller, so both collapse to `false`);
`expireStepFails` says whether the per-loan sub-transaction of the expiry
sweep is aborted by an uncaught error (log/DB failure), which SQLAlchemy
rolls back wholesale. -/
structure Oracles where
  generateCirculation : Nat → Option String
  sendWaitlist : Nat → Nat → Bool
  sendExpiration : Nat → Bool
  expireStepFails : Nat → Bool

-- ── Queries ─────────────────────────────────────────────────────────

/-- `db.session.get(Loan, id)` / a loan object fetched by primary key. -/
def findLoan (st : LibState) (loanId : Nat) : Option Loan :=
  st.loans.find? (fun l => l.id == loanId)

/-- `db.session.get(Book, id)`. -/
def findBook (st : LibState) (bookId : Nat) : Option Book :=
  st.books.find? (fun b => b.id == bookId)

/-- `db.session.get(User, id)`. -/
def findUser (st : LibState) (userId : Nat) : Option User :=
  st.users.find? (fun u => u.id == userId)

/-- `Loan.query.filter(book_id == id, is_active == True).count()`:
the body of `Book.active_loan_count` (models.py). -/
def activeLoanCount (st : LibState) (bookId : Nat) : Nat :=
  (st.loans.filter (fun l => l.bookId == bookId && l.isActive)).length

/-- `Book.active_loan_count` (models.py). -/
def Book.active_loan_count (b : Book) (st : LibState) : Nat :=
  activeLoanCount st b.id

/-- `Book.available_copies` (models.py): `max(0, owned_copies - active)`. -/
def Book.available_copies (b : Book) (st : LibState) : Int :=
  max 0 (b.ownedCopies - (b.active_loan_count st : Int))

/-- `Book.is_available` (models.py). -/
def Book.is_available (b : Book) (st : LibState) : Bool :=
  b.isVisible && !b.isDisabled && decide (0 < b.available_copies st) &&
    b.masterFilename.isSome

/-- `Book.loan_days` (models.py).  Python truthiness: an override of `None`
or `0` falls through to `DEFAULT_LOAN_DAYS` (default 14). -/
def Book.loan_days (b : Book) (cfg : Config) : Int :=
  match b.loanDurationOverride with
  | some d => if d ≠ 0 then d else cfg.defaultLoanDays.getD 14
  | none => cfg.defaultLoanDays.getD 14

-- ── State mutation helpers ──────────────────────────────────────────

/-- Mutating (by ORM identity, i.e. primary key) a loan row in the session. -/
def setLoan (st : LibState) (loanId : Nat) (f : Loan → Loan) : LibState :=
  { st with loans := st.loans.map (fun l => if l.id = loanId then f l else l) }

/-- Mutating a waitlist row in the session. -/
def setWaitlistEntry (st : LibState) (entryId : Nat) (f : WaitlistEntry → WaitlistEntry) :
    LibState :=
  { st with waitlist := st.waitlist.map (fun e => if e.id = entryId then f e else e) }

/-- A fresh autoincrement primary key for a new loan row. -/
def freshLoanId (st : LibState) : Nat :=
  (st.loans.map Loan.id).foldr max 0 + 1

/-- `_delete_circulation_file` (service.py): removes the loan's circulation
PDF from disk when it has one.  The path-traversal guard and the missing-file
tolerance are filesystem-level and have no effect on which well-formed
artifact names get removed. -/
def deleteCirculationFile (st : LibState) (l : Loan) : LibState :=
  match l.circulationFilename with
  | some fn => { st with deletedFiles := st.deletedFiles ++ [fn] }
  | none => st

-- ── Errors ──────────────────────────────────────────────────────────

/-- The distinct `ValueError` messages raised by the circulation code, one
constructor per message. -/
inductive LendingError where
  | bookUnavailable
  | restrictedTitle
  | patronIneligible
  | loanLimitReached
  | duplicateActiveLoan
  | noCopiesAvailable
  | artifactUnavailable
  | loanNotActive
  | loanInvalidated
  | loanExpired
  | renewalsExhausted
  | loanNotFound
  deriving DecidableEq

instance : DecidableEq (Except LendingError Loan) :=
  fun a b =>
    match a, b with
    | .error x, .error y =>
      if h : x = y then isTrue (by rw [h]) else isFalse (by intro hc; cases hc; exact h rfl)
    | .ok x, .ok y =>
      if h : x = y then isTrue (by rw [h]) else isFalse (by intro hc; cases hc; exact h rfl)
    | .error _, .ok _ => isFalse (by intro hc; cases hc)
    | .ok _, .error _ => isFalse (by intro hc; cases hc)

-- ── Waitlist fulfillment (service.py: process_waitlist) ─────────────

/-- The filter of the waitlist query: same book, `is_fulfilled == False`,
`notified_at IS NULL`. -/
def pendingFor (bookId : Nat) (e : WaitlistEntry) : Bool :=
  e.bookId == bookId && !e.isFulfilled && e.notifiedAt.isNone

/-- `ORDER BY created_at ASC ... .first()`: the first row (in stored order,
matching SQLite's stable return order) of minimal `created_at`. -/
def pickOldest : List WaitlistEntry → Option WaitlistEntry
  | [] => none
  | e :: es =>
    match pickOldest es with
    | none => some e
    | some m => if e.createdAt ≤ m.createdAt then some e else some m

/-- The waitlist query inside the loop of `process_waitlist`. -/
def nextWaitlistEntry (st : LibState) (bookId : Nat) : Option WaitlistEntry :=
  pickOldest (st.waitlist.filter (pendingFor bookId))

/-- The `while notifications_sent < max_notifications` loop of
`process_waitlist`; the budget is the number of notifications still allowed.
A missing user or a failed send (exception or `False` return) breaks the
loop; only a confirmed delivery sets `notified_at`. -/
def waitlistLoop (orc : Oracles) (now : Int) (book : Book) :
    Nat → LibState → LibState × Nat
  | 0, st => (st, 0)
  | budget + 1, st =>
    match nextWaitlistEntry st book.id with
    | none => (st, 0)
    | some e =>
      match findUser st e.userId with
      | none => (st, 0)
      | some _ =>
        if orc.sendWaitlist e.userId book.id then
          let st1 := setWaitlistEntry st e.id (fun w => { w with notifiedAt := some now })
          let r := waitlistLoop orc now book budget st1
          (r.1, r.2 + 1)
        else (st, 0)

/-- `process_waitlist` (service.py).  Returns the updated session and the
number of successful notifications.  The `commit` keyword only chooses
between commit and flush, which coincide in this embedding. -/
def process_waitlist (orc : Oracles) (st : LibState) (now : Int) (book : Book) :
    LibState × Nat :=
  let availableCopies : Int := max 0 (book.available_copies st)
  if availableCopies ≤ 0 then (st, 0)
  else
    let maxNotifications : Int := min availableCopies (max 0 book.ownedCopies)
    waitlistLoop orc now book maxNotifications.toNat st

-- ── Checkout (service.py: checkout_book) ────────────────────────────

/-- The `Loan(...)` row inserted by `checkout_book` (service.py): state
`active`, due in one loan period, renewal cap from config, snapshots taken.
The author snapshot stores `book.formatted_authors`, a pure display
re-formatting of `book.author`; the raw string stands in for it. -/
def newLoanRow (cfg : Config) (st : LibState) (now : Int) (user : User) (book : Book) :
    Loan :=
  { id := freshLoanId st
    userId := user.id
    bookId := book.id
    borrowedAt := now
    dueAt := now + daysToDelta (book.loan_days cfg)
    returnedAt := none
    isActive := true
    invalidated := false
    invalidatedReason := none
    circulationFilename := none
    renewalCount := 0
    maxRenewals := cfg.maxRenewals.getD 2
    reminderSent := false
    expirationNoticeSent := false
    bookTitleSnapshot := some book.title
    bookAuthorSnapshot := some book.author }

/-- The tail of `checkout_book`: mark the patron's un-fulfilled waitlist
entry for the title fulfilled, if one exists (`.first()` on an unordered
query: first in stored order). -/
def fulfillWaitlistEntry (st : LibState) (userId bookId : Nat) : LibState :=
  match st.waitlist.find?
      (fun e => e.userId == userId && e.bookId == bookId && !e.isFulfilled) with
  | some entry => setWaitlistEntry st entry.id (fun e => { e with isFulfilled := true })
  | none => st

/-- `checkout_book` (service.py).  The caller passes the (possibly stale)
`user` object and the book's primary key; the book row is re-read inside the
lock.  Every `raise ValueError` path runs `db.session.rollback()` before any
write, except the artifact-generation failure, which deletes the
just-committed loan row and re-raises. -/
def checkout_book (cfg : Config) (orc : Oracles) (st : LibState) (now : Int)
    (user : User) (bookId : Nat) : LibState × Except LendingError Loan :=
  match findBook st bookId with
  | none => (st, .error .bookUnavailable)
  | some book =>
    if !book.is_available st then (st, .error .bookUnavailable)
    else if book.restrictedAccess then (st, .error .restrictedTitle)
    else if !user.can_borrow then (st, .error .patronIneligible)
    else if ((st.loans.filter (fun l => l.userId == user.id && l.isActive)).length : Int) ≥
        cfg.maxLoansPerPatron.getD 5 then
      (st, .error .loanLimitReached)
    else if st.loans.any
        (fun l => l.userId == user.id && l.bookId == book.id && l.isActive) then
      (st, .error .duplicateActiveLoan)
    else if (activeLoanCount st book.id : Int) ≥ book.ownedCopies then
      (st, .error .noCopiesAvailable)
    else
      let loan := newLoanRow cfg st now user book
      let st1 := { st with loans := st.loans ++ [loan] }
      match orc.generateCirculation loan.id with
      | none =>
        ({ st1 with loans := st1.loans.filter (fun l => !(l.id == loan.id)) },
         .error .artifactUnavailable)
      | some filename =>
        let loanF := { loan with circulationFilename := some filename }
        let st2 := setLoan st1 loan.id (fun _ => loanF)
        (fulfillWaitlistEntry st2 user.id book.id, .ok loanF)

-- ── Renewal (service.py: renew_loan) ────────────────────────────────

/-- `renew_loan` (service.py).  The route layer fetches the loan by id; a
missing row cannot reach the function and is reported as `loanNotFound`. -/
def renew_loan (cfg : Config) (st : LibState) (now : Int) (loanId : Nat) :
    LibState × Except LendingError Loan :=
  match findLoan st loanId with
  | none => (st, .error .loanNotFound)
  | some loan =>
    if !loan.isActive then (st, .error .loanNotActive)
    else if loan.invalidated then (st, .error .loanInvalidated)
    else if loan.is_expired now then (st, .error .loanExpired)
    else if loan.renewalCount ≥ loan.maxRenewals then (st, .error .renewalsExhausted)
    else
      let extensionDays : Int :=
        match findBook st loan.bookId with
        | some book => book.loan_days cfg
        | none => cfg.defaultLoanDays.getD 14
      let loanR :=
        { loan with
          dueAt := loan.dueAt + daysToDelta extensionDays
          renewalCount := loan.renewalCount + 1
          reminderSent := false }
      (setLoan st loanId (fun _ => loanR), .ok loanR)

-- ── Return (service.py: return_loan) ────────────────────────────────

/-- `return_loan` (service.py).  When the book row was deleted,
`loan.book` is `None` and the waitlist pass performs no writes. -/
def return_loan (orc : Oracles) (st : LibState) (now : Int) (loanId : Nat) :
    LibState × Option LendingError :=
  match findLoan st loanId with
  | none => (st, some .loanNotFound)
  | some loan =>
    if !loan.isActive then (st, some .loanNotActive)
    else
      let st1 := setLoan st loanId
        (fun l => { l with isActive := false, returnedAt := some now })
      let st2 := deleteCirculationFile st1 loan
      match findBook st2 loan.bookId with
      | some book => ((process_waitlist orc st2 now book).1, none)
      | none => (st2, none)

-- ── Expiry sweep (service.py: expire_loans) ─────────────────────────

/-- First phase of one loan's sub-transaction in `expire_loans`: mark the
loan expired (`is_active = False`, `returned_at = now`). -/
def expireMark (now : Int) (st : LibState) (loan : Loan) : LibState :=
  setLoan st loan.id (fun l => { l with isActive := false, returnedAt := some now })

/-- Second phase: the best-effort expiration notice; the idempotency flag is
set only on confirmed delivery, and a failed or skipped send changes
nothing. -/
def expireNotice (orc : Oracles) (st : LibState) (loan : Loan) : LibState :=
  if !loan.expirationNoticeSent then
    match findUser st loan.userId, findBook st loan.bookId with
    | some _, some _ =>
      if orc.sendExpiration loan.id then
        setLoan st loan.id (fun l => { l with expirationNoticeSent := true })
      else st
    | _, _ => st
  else st

/-- Third phase: waitlist fulfillment for the freed title (with
`commit=False`), skipped when the book row is gone. -/
def expireWaitlist (orc : Oracles) (now : Int) (st : LibState) (loan : Loan) : LibState :=
  match findBook st loan.bookId with
  | some book => (process_waitlist orc st now book).1
  | none => st

/-- The body of one loan's nested sub-transaction in `expire_loans`,
assuming it does not abort.  Field reads on `loan` are on the live ORM
object, identical to the stored row when loan ids are unique. -/
def expireOne (orc : Oracles) (now : Int) (st : LibState) (loan : Loan) : LibState :=
  expireWaitlist orc now (expireNotice orc (expireMark now st loan) loan) loan

/-- One iteration of the `expire_loans` loop over the accumulated
`(state, expired_count, failed_count)`.  A failing sub-transaction is rolled
back wholesale, so modelling the abort check up front is equivalent; file
cleanup runs only on the committed path, after the sub-transaction. -/
def expireStep (orc : Oracles) (now : Int) (acc : LibState × Nat × Nat)
    (loan : Loan) : LibState × Nat × Nat :=
  if orc.expireStepFails loan.id then (acc.1, acc.2.1, acc.2.2 + 1)
  else (deleteCirculationFile (expireOne orc now acc.1 loan) loan,
        acc.2.1 + 1, acc.2.2)

/-- `expire_loans` (service.py).  Returns the state plus the
`(expired_count, failed_count)` pair. -/
def expire_loans (orc : Oracles) (st : LibState) (now : Int) :
    LibState × Nat × Nat :=
  let overdue := st.loans.filter (fun l => l.isActive && decide (l.dueAt ≤ now))
  overdue.foldl (expireStep orc now) (st, 0, 0)

-- ── Administrative invalidation (admin/routes_loans.py: loan_invalidate) ──

/-- `loan_invalidate` (admin/routes_loans.py).  The returned flag says
whether the form validated and the invalidation was applied; the form's
`DataRequired`/`Length(max=500)` validators reject a blank or over-long
reason with no writes.  Note the route checks neither `is_active` nor
`invalidated` on the loan. -/
def loan_invalidate (orc : Oracles) (st : LibState) (now : Int) (loanId : Nat)
    (reason : String) : LibState × Bool :=
  match findLoan st loanId with
  | none => (st, false)
  | some loan =>
    if pyStrip reason == "" || decide (reason.length > 500) then (st, false)
    else
      let st1 := setLoan st loanId
        (fun l =>
          { l with invalidated := true, invalidatedReason := some (pyStrip reason)
                   isActive := false, returnedAt := some now })
      let st2 := deleteCirculationFile st1 loan
      match findBook st2 loan.bookId with
      | some book => ((process_waitlist orc st2 now book).1, true)
      | none => (st2, true)

-- ── Operation sequences ─────────────────────────────────────────────

/-- One circulation operation, tagged with the wall-clock time at which it
runs. -/
inductive Op where
  | checkoutOp (now : Int) (user : User) (bookId : Nat)
  | renewOp (now : Int) (loanId : Nat)
  | returnOp (now : Int) (loanId : Nat)
  | expireOp (now : Int)
  | invalidateOp (now : Int) (loanId : Nat) (reason : String)
  | waitlistOp (now : Int) (bookId : Nat)

/-- The state transition of one circulation operation. -/
def stepOp (cfg : Config) (orc : Oracles) (st : LibState) : Op → LibState
  | .checkoutOp now user bookId => (checkout_book cfg orc st now user bookId).1
  | .renewOp now loanId => (renew_loan cfg st now loanId).1
  | .returnOp now loanId => (return_loan orc st now loanId).1
  | .expireOp now => (expire_loans orc st now).1
  | .invalidateOp now loanId reason => (loan_invalidate orc st now loanId reason).1
  | .waitlistOp now bookId =>
    match findBook st bookId with
    | some book => (process_waitlist orc st now book).1
    | none => st

/-- Running a sequence of circulation operations. -/
def runOps (cfg : Config) (orc : Oracles) (st : LibState) : List Op → LibState
  | [] => st
  | op :: ops => runOps cfg orc (stepOp cfg orc st op) ops

/-- The central safety property: no title ever has more active loans than
owned copies. -/
def CopyInvariant (st : LibState) : Prop :=
  ∀ b ∈ st.books, (activeLoanCount st b.id : Int) ≤ b.ownedCopies

/-- Primary keys are unique: the well-formedness every database state has. -/
def WFState (st : LibState) : Prop :=
  (st.books.map Book.id).Nodup ∧ (st.loans.map Loan.id).Nodup

/-- The waitlist row with entry `e`'s primary key carries a notification
timestamp in state `st`. -/
def notifiedIn (st : LibState) (e : WaitlistEntry) : Prop :=
  ∃ x ∈ st.waitlist, x.id = e.id ∧ x.notifiedAt.isSome = true

/-- The number of days `renew_loan` extends a loan by: the book's
`loan_days` when the book row still exists, else `DEFAULT_LOAN_DAYS`
(default 14). -/
def loanPeriodDays (cfg : Config) (st : LibState) (loan : Loan) : Int :=
  match findBook st loan.bookId with
  | some book => book.loan_days cfg
  | none => cfg.defaultLoanDays.getD 14

/-- The updated loan row written by a successful `renew_loan`: `due_at`
extended from the current due date, `renewal_count` incremented,
`reminder_sent` cleared, everything else untouched. -/
def renewedLoan (cfg : Config) (st : LibState) (loan : Loan) : Loan :=
  { loan with
    dueAt := loan.dueAt + daysToDelta (loanPeriodDays cfg st loan)
    renewalCount := loan.renewalCount + 1
    reminderSent := false }

/-- Spec-side definition, written from claim C3's words, NOT from the code:
the first violated checkout precondition in the claim's stated order —
title lendable (visible, not disabled, not access-restricted), patron
eligible, patron under the per-patron cap, no duplicate active loan,
`active_loan_count < owned_copies` — mapped to that precondition's error
kind.  Compared against `checkout_book` to settle the ordering claim. -/
def checkoutClaimedError (cfg : Config) (st : LibState) (user : User) (bookId : Nat) :
    Option LendingError :=
  match findBook st bookId with
  | none => some .bookUnavailable
  | some book =>
    if !(book.isVisible && !book.isDisabled) then some .bookUnavailable
    else if book.restrictedAccess then some .restrictedTitle
    else if !user.can_borrow then some .patronIneligible
    else if ((st.loans.filter (fun l => l.userId == user.id && l.isActive)).length : Int) ≥
        cfg.maxLoansPerPatron.getD 5 then some .loanLimitReached
    else if st.loans.any (fun l => l.userId == user.id && l.bookId == book.id && l.isActive) then
      some .duplicateActiveLoan
    else if (activeLoanCount st book.id : Int) ≥ book.ownedCopies then some .noCopiesAvailable
    else none

-- ── Concrete instances for witnesses and counterexamples ────────────

/-- A config with no keys set: every `config.get` falls back to its default
(5 loans per patron, 2 renewals, 14 loan days). -/
def defaultConfig : Config :=
  { maxLoansPerPatron := none, maxRenewals := none, defaultLoanDays := none }

/-- Oracles where every external collaborator succeeds. -/
def okOracles : Oracles :=
  { generateCirculation := fun _ => some "circulation.pdf"
    sendWaitlist := fun _ _ => true
    sendExpiration := fun _ => true
    expireStepFails := fun _ => false }

/-- Oracles whose artifact generator always fails. -/
def failingPdfOracles : Oracles :=
  { okOracles with generateCirculation := fun _ => none }

/-- Oracles where the expiry sub-transaction for loan 2 aborts. -/
def failSecondOracles : Oracles :=
  { okOracles with expireStepFails := fun i => i == 2 }

/-- Oracles where waitlist notification to user 2 fails. -/
def failUser2Oracles : Oracles :=
  { okOracles with sendWaitlist := fun uid _ => !(uid == 2) }

def patron1 : User := { id := 1, isActiveAccount := true, isBlocked := false, role := "patron" }

def patron2 : User := { id := 2, isActiveAccount := true, isBlocked := false, role := "patron" }

def patron3 : User := { id := 3, isActiveAccount := true, isBlocked := false, role := "patron" }

/-- A lendable one-copy title. -/
def sampleBook : Book :=
  { id := 1, title := "Sermons", author := "Anon", ownedCopies := 1
    loanDurationOverride := none, isVisible := true, isDisabled := false
    restrictedAccess := false, masterFilename := some "sermons.pdf" }

/-- A loan row with the given key fields and defaults elsewhere. -/
def mkLoan (i uid bid : Nat) (due : Int) (act : Bool) (circ : Option String) : Loan :=
  { id := i, userId := uid, bookId := bid, borrowedAt := 0, dueAt := due
    returnedAt := none, isActive := act, invalidated := false, invalidatedReason := none
    circulationFilename := circ, renewalCount := 0, maxRenewals := 2
    reminderSent := false, expirationNoticeSent := false
    bookTitleSnapshot := none, bookAuthorSnapshot := none }

/-- Two patrons, one single-copy title, nothing on loan. -/
def c1State : LibState :=
  { users := [patron1, patron2], books := [sampleBook], loans := [], waitlist := []
    deletedFiles := [] }

/-- A race for the last copy followed by a sweep and a return. -/
def c1Ops : List Op :=
  [.checkoutOp 0 patron1 1, .checkoutOp 1 patron2 1, .expireOp 2, .returnOp 3 1]

/-- The single copy of the title is out to patron 2; patron 1 is eligible. -/
def c3State : LibState :=
  { users := [patron1, patron2], books := [sampleBook]
    loans := [mkLoan 1 2 1 1000 true none], waitlist := [], deletedFiles := [] }

/-- Three overdue active loans on a three-copy title. -/
def c4State : LibState :=
  { users := [patron1, patron2, patron3]
    books := [{ sampleBook with ownedCopies := 3 }]
    loans := [mkLoan 1 1 1 (-10) true (some "c1.pdf"),
              mkLoan 2 2 1 (-10) true (some "c2.pdf"),
              mkLoan 3 3 1 (-10) true (some "c3.pdf")]
    waitlist := [], deletedFiles := [] }

/-- A three-copy title with one copy out and patrons 1, 2, 3 waitlisted in
that arrival order. -/
def c5State : LibState :=
  { users := [patron1, patron2, patron3]
    books := [{ sampleBook with ownedCopies := 3 }]
    loans := [mkLoan 9 9 1 1000 true none]
    waitlist := [{ id := 1, userId := 1, bookId := 1, createdAt := 10,
                   notifiedAt := none, isFulfilled := false },
                 { id := 2, userId := 2, bookId := 1, createdAt := 20,
                   notifiedAt := none, isFulfilled := false },
                 { id := 3, userId := 3, bookId := 1, createdAt := 30,
                   notifiedAt := none, isFulfilled := false }]
    deletedFiles := [] }

/-- A loan already in the returned terminal state (`is_active = False`,
`invalidated = False`). -/
def c6Loan : Loan := { mkLoan 1 1 1 1000 false none with returnedAt := some 50 }

def c6State : LibState :=
  { users := [patron1], books := [sampleBook]
    loans := [c6Loan], waitlist := [], deletedFiles := [] }

/-- An active, renewable loan. -/
def c7Loan : Loan := mkLoan 1 1 1 1000 true (some "c1.pdf")

def c7State : LibState :=
  { users := [patron1], books := [sampleBook]
    loans := [c7Loan], waitlist := [], deletedFiles := [] }

/-- An active loan that has exhausted its two renewals. -/
def c8Loan : Loan := { mkLoan 1 1 1 1000 true none with renewalCount := 2 }

def c8State : LibState :=
  { users := [patron1], books := [sampleBook]
    loans := [c8Loan], waitlist := [], deletedFiles := [] }

/-- An active, renewable loan whose book row was deleted. -/
def c10Loan : Loan := mkLoan 1 1 99 1000 true none

def c10State : LibState :=
  { users := [patron1], books := []
    loans := [c10Loan], waitlist := [], deletedFiles := [] }

-- ── Generic list lemmas ─────────────────────────────────────────────

theorem length_filter_map_le {α : Type} (g : α → α) (p : α → Bool) (xs : List α)
    (h : ∀ x ∈ xs, p (g x) = true → p x = true) :
    ((xs.map g).filter p).length ≤ (xs.filter p).length := by
  induction xs with
  | nil => simp
  | cons a xs ih =>
    have ih' := ih (fun x hx hpx => h x (List.mem_cons_of_mem _ hx) hpx)
    by_cases hga : p (g a)
    · have hpa : p a = true := h a (List.mem_cons_self _ _) hga
      simpa [List.filter_cons, hga, hpa] using Nat.succ_le_succ ih'
    · by_cases hpa : p a
      · simp only [List.map_cons, List.filter_cons, hga, hpa, if_true, if_false,
          Bool.false_eq_true, List.length_cons]
        exact Nat.le_succ_of_le ih'
      · simpa [List.filter_cons, hga, hpa] using ih'

theorem length_filter_map_eq {α : Type} (g : α → α) (p : α → Bool) (xs : List α)
    (h : ∀ x ∈ xs, p (g x) = p x) :
    ((xs.map g).filter p).length = (xs.filter p).length := by
  induction xs with
  | nil => simp
  | cons a xs ih =>
    have ih' := ih (fun x hx => h x (List.mem_cons_of_mem _ hx))
    have ha := h a (List.mem_cons_self _ _)
    by_cases hpa : p a
    · simp [List.filter_cons, hpa, ha, ih']
    · simp [List.filter_cons, hpa, ha, ih']

theorem find?_map_pred {α : Type} (g : α → α) (p : α → Bool) (xs : List α)
    (h : ∀ x, p (g x) = p x) :
    (xs.map g).find? p = (xs.find? p).map g := by
  induction xs with
  | nil => rfl
  | cons a xs ih =>
    by_cases hpa : p a
    · simp [List.find?_cons, h, hpa]
    · simp [List.find?_cons, h, hpa, ih]

theorem nodup_map_inj {α β : Type} {f : α → β} {xs : List α}
    (hnodup : (xs.map f).Nodup) {a b : α}
    (ha : a ∈ xs) (hb : b ∈ xs) (hfab : f a = f b) : a = b :=
  List.inj_on_of_nodup_map hnodup ha hb hfab

-- ── Fresh loan ids ──────────────────────────────────────────────────

theorem loanId_le_foldr_max (xs : List Loan) :
    ∀ l ∈ xs, l.id ≤ (xs.map Loan.id).foldr max 0 := by
  induction xs with
  | nil => simp
  | cons a xs ih =>
    intro l hl
    rcases List.mem_cons.mp hl with h | h
    · subst h
      exact Nat.le_max_left _ _
    · exact le_trans (ih l h) (Nat.le_max_right _ _)

theorem freshLoanId_not_mem (st : LibState) : ∀ l ∈ st.loans, l.id ≠ freshLoanId st := by
  intro l hl
  have := loanId_le_foldr_max st.loans l hl
  unfold freshLoanId
  omega

-- ── Frame lemmas ────────────────────────────────────────────────────

theorem setLoan_users (st : LibState) (i : Nat) (f : Loan → Loan) :
    (setLoan st i f).users = st.users := rfl

theorem setLoan_books (st : LibState) (i : Nat) (f : Loan → Loan) :
    (setLoan st i f).books = st.books := rfl

theorem setLoan_waitlist (st : LibState) (i : Nat) (f : Loan → Loan) :
    (setLoan st i f).waitlist = st.waitlist := rfl

theorem setLoan_deletedFiles (st : LibState) (i : Nat) (f : Loan → Loan) :
    (setLoan st i f).deletedFiles = st.deletedFiles := rfl

theorem setWaitlistEntry_frame (st : LibState) (i : Nat) (f : WaitlistEntry → WaitlistEntry) :
    (setWaitlistEntry st i f).users = st.users ∧
    (setWaitlistEntry st i f).books = st.books ∧
    (setWaitlistEntry st i f).loans = st.loans ∧
    (setWaitlistEntry st i f).deletedFiles = st.deletedFiles :=
  ⟨rfl, rfl, rfl, rfl⟩

theorem deleteCirculationFile_frame (st : LibState) (l : Loan) :
    (deleteCirculationFile st l).users = st.users ∧
    (deleteCirculationFile st l).books = st.books ∧
    (deleteCirculationFile st l).loans = st.loans ∧
    (deleteCirculationFile st l).waitlist = st.waitlist := by
  unfold deleteCirculationFile
  cases l.circulationFilename <;> exact ⟨rfl, rfl, rfl, rfl⟩

theorem waitlistLoop_frame (orc : Oracles) (now : Int) (book : Book) :
    ∀ (n : Nat) (st : LibState),
      (waitlistLoop orc now book n st).1.users = st.users ∧
      (waitlistLoop orc now book n st).1.books = st.books ∧
      (waitlistLoop orc now book n st).1.loans = st.loans ∧
      (waitlistLoop orc now book n st).1.deletedFiles = st.deletedFiles := by
  intro n
  induction n with
  | zero => intro st; exact ⟨rfl, rfl, rfl, rfl⟩
  | succ n ih =>
    intro st
    unfold waitlistLoop
    split
    · exact ⟨rfl, rfl, rfl, rfl⟩
    · split
      · exact ⟨rfl, rfl, rfl, rfl⟩
      · split
        · exact ih _
        · exact ⟨rfl, rfl, rfl, rfl⟩

theorem process_waitlist_frame (orc : Oracles) (st : LibState) (now : Int) (book : Book) :
    (process_waitlist orc st now book).1.users = st.users ∧
    (process_waitlist orc st now book).1.books = st.books ∧
    (process_waitlist orc st now book).1.loans = st.loans ∧
    (process_waitlist orc st now book).1.deletedFiles = st.deletedFiles := by
  unfold process_waitlist
  dsimp only
  split
  · exact ⟨rfl, rfl, rfl, rfl⟩
  · exact waitlistLoop_frame orc now book _ st

-- ── find / membership lemmas ────────────────────────────────────────

theorem findLoan_eq_some {st : LibState} {i : Nat} {l : Loan}
    (h : findLoan st i = some l) : l ∈ st.loans ∧ l.id = i := by
  unfold findLoan at h
  refine ⟨List.mem_of_find?_eq_some h, ?_⟩
  have := List.find?_some h
  simpa using this

theorem findBook_eq_some {st : LibState} {i : Nat} {b : Book}
    (h : findBook st i = some b) : b ∈ st.books ∧ b.id = i := by
  unfold findBook at h
  refine ⟨List.mem_of_find?_eq_some h, ?_⟩
  have := List.find?_some h
  simpa using this

theorem mem_setLoan_of_ne {st : LibState} {l : Loan} (i : Nat) (f : Loan → Loan)
    (hl : l ∈ st.loans) (hne : l.id ≠ i) : l ∈ (setLoan st i f).loans := by
  have := List.mem_map_of_mem (fun x => if x.id = i then f x else x) hl
  simpa [setLoan, hne] using this

theorem mem_setLoan_self {st : LibState} {l : Loan} (i : Nat) (f : Loan → Loan)
    (hl : l ∈ st.loans) (heq : l.id = i) : f l ∈ (setLoan st i f).loans := by
  have := List.mem_map_of_mem (fun x => if x.id = i then f x else x) hl
  simpa [setLoan, heq] using this

theorem findLoan_setLoan (st : LibState) (i : Nat) (f : Loan → Loan)
    (hid : ∀ l, l.id = i → (f l).id = i) :
    findLoan (setLoan st i f) i =
      (findLoan st i).map (fun l => if l.id = i then f l else l) := by
  unfold findLoan setLoan
  apply find?_map_pred
  intro x
  by_cases hx : x.id = i
  · simp [hx, hid x hx]
  · simp [hx]

theorem loanIds_setLoan (st : LibState) (i : Nat) (f : Loan → Loan)
    (hid : ∀ l, l.id = i → (f l).id = i) :
    (setLoan st i f).loans.map Loan.id = st.loans.map Loan.id := by
  unfold setLoan
  dsimp only
  rw [List.map_map]
  apply List.map_congr_left
  intro x _
  by_cases hx : x.id = i
  · simp [hx, hid x hx]
  · simp [hx]

-- ── active-loan-count lemmas ────────────────────────────────────────

theorem activeLoanCount_setLoan_le (st : LibState) (i : Nat) (f : Loan → Loan) (b : Nat)
    (h : ∀ l ∈ st.loans, l.id = i →
      ((f l).bookId == b && (f l).isActive) = true →
      (l.bookId == b && l.isActive) = true) :
    activeLoanCount (setLoan st i f) b ≤ activeLoanCount st b := by
  unfold activeLoanCount setLoan
  apply length_filter_map_le
  intro x hx hpx
  by_cases hid : x.id = i
  · simp only [hid, if_pos] at hpx
    exact h x hx hid hpx
  · simpa [hid] using hpx

theorem activeLoanCount_setLoan_eq (st : LibState) (i : Nat) (f : Loan → Loan) (b : Nat)
    (h : ∀ l ∈ st.loans, l.id = i →
      ((f l).bookId == b && (f l).isActive) = (l.bookId == b && l.isActive)) :
    activeLoanCount (setLoan st i f) b = activeLoanCount st b := by
  unfold activeLoanCount setLoan
  apply length_filter_map_eq
  intro x hx
  by_cases hid : x.id = i
  · simp only [hid, if_pos]
    exact h x hx hid
  · simp [hid]

-- ── pickOldest / nextWaitlistEntry lemmas ───────────────────────────

theorem pickOldest_eq_none : ∀ xs : List WaitlistEntry, pickOldest xs = none ↔ xs = [] := by
  intro xs
  cases xs with
  | nil => simp [pickOldest]
  | cons a xs =>
    simp only [pickOldest]
    cases pickOldest xs with
    | none => simp
    | some m =>
      by_cases h : a.createdAt ≤ m.createdAt <;> simp [h]

theorem pickOldest_mem : ∀ (xs : List WaitlistEntry) (e : WaitlistEntry),
    pickOldest xs = some e → e ∈ xs := by
  intro xs
  induction xs with
  | nil => intro e h; cases h
  | cons a xs ih =>
    intro e h
    simp only [pickOldest] at h
    cases hp : pickOldest xs with
    | none =>
      simp only [hp] at h
      cases h
      exact List.mem_cons_self _ _
    | some m =>
      simp only [hp] at h
      by_cases hle : a.createdAt ≤ m.createdAt
      · rw [if_pos hle] at h
        cases h
        exact List.mem_cons_self _ _
      · rw [if_neg hle] at h
        cases h
        exact List.mem_cons_of_mem _ (ih _ hp)

theorem pickOldest_min : ∀ (xs : List WaitlistEntry) (e : WaitlistEntry),
    pickOldest xs = some e → ∀ x ∈ xs, e.createdAt ≤ x.createdAt := by
  intro xs
  induction xs with
  | nil => intro e h; cases h
  | cons a xs ih =>
    intro e h x hx
    simp only [pickOldest] at h
    rcases List.mem_cons.mp hx with hxa | hxs
    · subst hxa
      cases hp : pickOldest xs with
      | none =>
        simp only [hp] at h; cases h; exact le_refl _
      | some m =>
        simp only [hp] at h
        by_cases hle : x.createdAt ≤ m.createdAt
        · rw [if_pos hle] at h; cases h; exact le_refl _
        · rw [if_neg hle] at h; cases h
          exact le_of_lt (lt_of_not_le hle)
    · cases hp : pickOldest xs with
      | none =>
        have : xs = [] := (pickOldest_eq_none xs).mp hp
        subst this
        cases hxs
      | some m =>
        simp only [hp] at h
        have hmx := ih m hp x hxs
        by_cases hle : a.createdAt ≤ m.createdAt
        · rw [if_pos hle] at h; cases h; exact le_trans hle hmx
        · rw [if_neg hle] at h; cases h; exact hmx

theorem nextWaitlistEntry_spec {st : LibState} {bookId : Nat} {e : WaitlistEntry}
    (h : nextWaitlistEntry st bookId = some e) :
    e ∈ st.waitlist ∧ pendingFor bookId e = true ∧
      ∀ x ∈ st.waitlist, pendingFor bookId x = true → e.createdAt ≤ x.createdAt := by
  unfold nextWaitlistEntry at h
  have hmem := pickOldest_mem _ _ h
  refine ⟨(List.mem_filter.mp hmem).1, (List.mem_filter.mp hmem).2, ?_⟩
  intro x hx hpx
  exact pickOldest_min _ _ h x (List.mem_filter.mpr ⟨hx, hpx⟩)

-- ── expiry-sweep lemmas ─────────────────────────────────────────────

theorem activeLoanCount_eq_of_loans {st1 st2 : LibState} (h : st1.loans = st2.loans)
    (b : Nat) : activeLoanCount st1 b = activeLoanCount st2 b := by
  unfold activeLoanCount
  rw [h]

theorem expireNotice_cases (orc : Oracles) (st : LibState) (loan : Loan) :
    expireNotice orc st loan = st ∨
    expireNotice orc st loan =
      setLoan st loan.id (fun l => { l with expirationNoticeSent := true }) := by
  unfold expireNotice
  split
  · split
    · split
      · exact Or.inr rfl
      · exact Or.inl rfl
    · exact Or.inl rfl
  · exact Or.inl rfl

theorem expireWaitlist_frame (orc : Oracles) (now : Int) (st : LibState) (loan : Loan) :
    (expireWaitlist orc now st loan).users = st.users ∧
    (expireWaitlist orc now st loan).books = st.books ∧
    (expireWaitlist orc now st loan).loans = st.loans ∧
    (expireWaitlist orc now st loan).deletedFiles = st.deletedFiles := by
  unfold expireWaitlist
  split
  · exact process_waitlist_frame _ _ _ _
  · exact ⟨rfl, rfl, rfl, rfl⟩

theorem expireMark_loanIds (now : Int) (st : LibState) (loan : Loan) :
    (expireMark now st loan).loans.map Loan.id = st.loans.map Loan.id :=
  loanIds_setLoan st loan.id _ (fun _ hl => hl)

theorem expireOne_frame (orc : Oracles) (now : Int) (st : LibState) (loan : Loan) :
    (expireOne orc now st loan).users = st.users ∧
    (expireOne orc now st loan).books = st.books ∧
    (expireOne orc now st loan).deletedFiles = st.deletedFiles := by
  unfold expireOne
  have hw := expireWaitlist_frame orc now (expireNotice orc (expireMark now st loan) loan) loan
  rcases expireNotice_cases orc (expireMark now st loan) loan with h | h <;>
    rw [hw.1, hw.2.1, hw.2.2.2, h] <;> exact ⟨rfl, rfl, rfl⟩

theorem expireOne_loanIds (orc : Oracles) (now : Int) (st : LibState) (loan : Loan) :
    (expireOne orc now st loan).loans.map Loan.id = st.loans.map Loan.id := by
  unfold expireOne
  rw [(expireWaitlist_frame _ _ _ _).2.2.1]
  rcases expireNotice_cases orc (expireMark now st loan) loan with h | h
  · rw [h, expireMark_loanIds]
  · rw [h]
    have h2 := loanIds_setLoan (expireMark now st loan) loan.id
      (fun l => { l with expirationNoticeSent := true }) (fun _ hl => hl)
    rw [h2, expireMark_loanIds]

theorem mem_expireOne_of_ne {st : LibState} {l loan : Loan} (orc : Oracles) (now : Int)
    (hl : l ∈ st.loans) (hne : l.id ≠ loan.id) : l ∈ (expireOne orc now st loan).loans := by
  unfold expireOne
  rw [(expireWaitlist_frame _ _ _ _).2.2.1]
  have h1 : l ∈ (expireMark now st loan).loans := mem_setLoan_of_ne _ _ hl hne
  rcases expireNotice_cases orc (expireMark now st loan) loan with h | h
  · rw [h]; exact h1
  · rw [h]; exact mem_setLoan_of_ne _ _ h1 hne

theorem expireOne_expired {st : LibState} {l loan : Loan} (orc : Oracles) (now : Int)
    (hl : l ∈ st.loans) (heq : l.id = loan.id) :
    ∃ lf ∈ (expireOne orc now st loan).loans,
      lf.id = l.id ∧ lf.isActive = false ∧ lf.returnedAt = some now := by
  unfold expireOne
  rw [(expireWaitlist_frame _ _ _ _).2.2.1]
  have h1 := mem_setLoan_self loan.id
    (fun x => { x with isActive := false, returnedAt := some now }) hl heq
  rcases expireNotice_cases orc (expireMark now st loan) loan with h | h
  · rw [h]
    exact ⟨_, h1, rfl, rfl, rfl⟩
  · rw [h]
    exact ⟨_, mem_setLoan_self loan.id _ h1 heq, rfl, rfl, rfl⟩

theorem expireOne_count_le (orc : Oracles) (now : Int) (st : LibState) (loan : Loan)
    (b : Nat) : activeLoanCount (expireOne orc now st loan) b ≤ activeLoanCount st b := by
  unfold expireOne
  rw [activeLoanCount_eq_of_loans (expireWaitlist_frame _ _ _ _).2.2.1]
  have hmark : activeLoanCount (expireMark now st loan) b ≤ activeLoanCount st b := by
    apply activeLoanCount_setLoan_le
    intro l _ _ hpx
    simp at hpx
  rcases expireNotice_cases orc (expireMark now st loan) loan with h | h
  · rw [h]; exact hmark
  · rw [h, activeLoanCount_setLoan_eq]
    · exact hmark
    · intro l _ _
      rfl

theorem expireFold_untouched (orc : Oracles) (now : Int) :
    ∀ (todo : List Loan) (acc : LibState × Nat × Nat) (l : Loan),
      l ∈ acc.1.loans → (∀ a ∈ todo, a.id ≠ l.id) →
      l ∈ (todo.foldl (expireStep orc now) acc).1.loans := by
  intro todo
  induction todo with
  | nil => intro acc l hl _; exact hl
  | cons a todo ih =>
    intro acc l hl hne
    simp only [List.foldl_cons]
    apply ih
    · unfold expireStep
      split
      · exact hl
      · rw [(deleteCirculationFile_frame _ _).2.2.1]
        exact mem_expireOne_of_ne orc now hl
          (fun hid => hne a (List.mem_cons_self _ _) hid.symm)
    · intro x hx
      exact hne x (List.mem_cons_of_mem _ hx)

theorem expireFold_failed (orc : Oracles) (now : Int) :
    ∀ (todo : List Loan), (todo.map Loan.id).Nodup →
      ∀ (acc : LibState × Nat × Nat) (l : Loan),
        l ∈ todo → l ∈ acc.1.loans → orc.expireStepFails l.id = true →
        l ∈ (todo.foldl (expireStep orc now) acc).1.loans := by
  intro todo
  induction todo with
  | nil => intro _ acc l hl; cases hl
  | cons a todo ih =>
    intro hnodup acc l hmem hl hfail
    rw [List.map_cons, List.nodup_cons] at hnodup
    simp only [List.foldl_cons]
    rcases List.mem_cons.mp hmem with rfl | hmem'
    · have hstep : (expireStep orc now acc l).1 = acc.1 := by
        unfold expireStep
        rw [if_pos hfail]
      apply expireFold_untouched
      · rw [hstep]; exact hl
      · intro x hx hxid
        exact hnodup.1 (hxid ▸ List.mem_map_of_mem _ hx)
    · have hne : a.id ≠ l.id := by
        intro h
        exact hnodup.1 (h ▸ List.mem_map_of_mem _ hmem')
      apply ih hnodup.2 _ _ hmem' _ hfail
      unfold expireStep
      split
      · exact hl
      · rw [(deleteCirculationFile_frame _ _).2.2.1]
        exact mem_expireOne_of_ne orc now hl (fun hid => hne hid.symm)

theorem expireFold_success (orc : Oracles) (now : Int) :
    ∀ (todo : List Loan), (todo.map Loan.id).Nodup →
      ∀ (acc : LibState × Nat × Nat) (l : Loan),
        l ∈ todo → l ∈ acc.1.loans → orc.expireStepFails l.id = false →
        ∃ lf ∈ (todo.foldl (expireStep orc now) acc).1.loans,
          lf.id = l.id ∧ lf.isActive = false ∧ lf.returnedAt = some now := by
  intro todo
  induction todo with
  | nil => intro _ acc l hl; cases hl
  | cons a todo ih =>
    intro hnodup acc l hmem hl hfail
    rw [List.map_cons, List.nodup_cons] at hnodup
    simp only [List.foldl_cons]
    rcases List.mem_cons.mp hmem with rfl | hmem'
    · have hstep : (expireStep orc now acc l).1 =
          deleteCirculationFile (expireOne orc now acc.1 l) l := by
        unfold expireStep
        rw [if_neg (by simp [hfail])]
      obtain ⟨lf, hlf, hid, hact, hret⟩ := expireOne_expired orc now hl rfl
      refine ⟨lf, ?_, hid, hact, hret⟩
      apply expireFold_untouched
      · rw [hstep, (deleteCirculationFile_frame _ _).2.2.1]
        exact hlf
      · intro x hx hxid
        rw [hid] at hxid
        exact hnodup.1 (hxid ▸ List.mem_map_of_mem _ hx)
    · have hne : a.id ≠ l.id := by
        intro h
        exact hnodup.1 (h ▸ List.mem_map_of_mem _ hmem')
      apply ih hnodup.2 _ _ hmem' _ hfail
      unfold expireStep
      split
      · exact hl
      · rw [(deleteCirculationFile_frame _ _).2.2.1]
        exact mem_expireOne_of_ne orc now hl (fun hid => hne hid.symm)

theorem expireFold_deletedFiles (orc : Oracles) (now : Int) :
    ∀ (todo : List Loan) (acc : LibState × Nat × Nat) (fn : String),
      fn ∈ (todo.foldl (expireStep orc now) acc).1.deletedFiles →
      fn ∈ acc.1.deletedFiles ∨
        ∃ l ∈ todo, orc.expireStepFails l.id = false ∧ l.circulationFilename = some fn := by
  intro todo
  induction todo with
  | nil => intro acc fn hfn; exact Or.inl hfn
  | cons a todo ih =>
    intro acc fn hfn
    simp only [List.foldl_cons] at hfn
    rcases ih (expireStep orc now acc a) fn hfn with h | ⟨l, hl, hf, hc⟩
    · unfold expireStep at h
      by_cases hfail : orc.expireStepFails a.id
      · rw [if_pos hfail] at h
        exact Or.inl h
      · rw [if_neg hfail] at h
        unfold deleteCirculationFile at h
        cases hcirc : a.circulationFilename with
        | none =>
          rw [hcirc] at h
          rw [(expireOne_frame orc now acc.1 a).2.2] at h
          exact Or.inl h
        | some fn' =>
          rw [hcirc] at h
          simp only at h
          rw [(expireOne_frame orc now acc.1 a).2.2] at h
          rcases List.mem_append.mp h with h' | h'
          · exact Or.inl h'
          · refine Or.inr ⟨a, List.mem_cons_self _ _, by simpa using hfail, ?_⟩
            have hfn : fn = fn' := by simpa using h'
            rw [hcirc, hfn]
    · exact Or.inr ⟨l, List.mem_cons_of_mem _ hl, hf, hc⟩

theorem expireFold_count_le (orc : Oracles) (now : Int) :
    ∀ (todo : List Loan) (acc : LibState × Nat × Nat) (b : Nat),
      activeLoanCount (todo.foldl (expireStep orc now) acc).1 b ≤
        activeLoanCount acc.1 b := by
  intro todo
  induction todo with
  | nil => intro acc b; exact le_refl _
  | cons a todo ih =>
    intro acc b
    simp only [List.foldl_cons]
    refine le_trans (ih _ b) ?_
    unfold expireStep
    split
    · exact le_refl _
    · rw [activeLoanCount_eq_of_loans (deleteCirculationFile_frame _ _).2.2.1]
      exact expireOne_count_le orc now acc.1 a b

theorem expireFold_loanIds (orc : Oracles) (now : Int) :
    ∀ (todo : List Loan) (acc : LibState × Nat × Nat),
      (todo.foldl (expireStep orc now) acc).1.loans.map Loan.id =
        acc.1.loans.map Loan.id := by
  intro todo
  induction todo with
  | nil => intro acc; rfl
  | cons a todo ih =>
    intro acc
    simp only [List.foldl_cons]
    rw [ih]
    unfold expireStep
    split
    · rfl
    · rw [(deleteCirculationFile_frame _ _).2.2.1]
      exact expireOne_loanIds orc now acc.1 a

theorem expireFold_books (orc : Oracles) (now : Int) :
    ∀ (todo : List Loan) (acc : LibState × Nat × Nat),
      (todo.foldl (expireStep orc now) acc).1.books = acc.1.books := by
  intro todo
  induction todo with
  | nil => intro acc; rfl
  | cons a todo ih =>
    intro acc
    simp only [List.foldl_cons]
    rw [ih]
    unfold expireStep
    split
    · rfl
    · rw [(deleteCirculationFile_frame _ _).2.1]
      exact (expireOne_frame orc now acc.1 a).2.1

-- ── waitlist-loop lemmas ────────────────────────────────────────────

theorem waitlistIds_setWaitlistEntry (st : LibState) (i : Nat)
    (f : WaitlistEntry → WaitlistEntry) (hid : ∀ e, e.id = i → (f e).id = i) :
    (setWaitlistEntry st i f).waitlist.map WaitlistEntry.id =
      st.waitlist.map WaitlistEntry.id := by
  unfold setWaitlistEntry
  dsimp only
  rw [List.map_map]
  apply List.map_congr_left
  intro x _
  by_cases hx : x.id = i
  · simp [hx, hid x hx]
  · simp [hx]

theorem waitlistLoop_count_le (orc : Oracles) (now : Int) (book : Book) :
    ∀ (n : Nat) (st : LibState), (waitlistLoop orc now book n st).2 ≤ n := by
  intro n
  induction n with
  | zero => intro st; exact le_refl _
  | succ n ih =>
    intro st
    unfold waitlistLoop
    split
    · exact Nat.zero_le _
    · split
      · exact Nat.zero_le _
      · split
        · exact Nat.succ_le_succ (ih _)
        · exact Nat.zero_le _

theorem waitlistLoop_changes (orc : Oracles) (now : Int) (book : Book) :
    ∀ (n : Nat) (st : LibState), (st.waitlist.map WaitlistEntry.id).Nodup →
      ∀ x ∈ (waitlistLoop orc now book n st).1.waitlist,
        x ∈ st.waitlist ∨
        ∃ e ∈ st.waitlist, x.id = e.id ∧ pendingFor book.id e = true ∧
          orc.sendWaitlist e.userId book.id = true ∧
          x = { e with notifiedAt := some now } := by
  intro n
  induction n with
  | zero => intro st _ x hx; exact Or.inl hx
  | succ n ih =>
    intro st hnodup x hx
    rw [waitlistLoop] at hx
    rcases hnext : nextWaitlistEntry st book.id with _ | e0
    · simp only [hnext] at hx
      exact Or.inl hx
    · simp only [hnext] at hx
      obtain ⟨he0mem, he0pend, _⟩ := nextWaitlistEntry_spec hnext
      rcases hu : findUser st e0.userId with _ | u
      · simp only [hu] at hx
        exact Or.inl hx
      · simp only [hu] at hx
        by_cases hs : orc.sendWaitlist e0.userId book.id
        · simp only [if_pos hs] at hx
          have hnodup1 : ((setWaitlistEntry st e0.id
              (fun w => { w with notifiedAt := some now })).waitlist.map
                WaitlistEntry.id).Nodup := by
            rw [waitlistIds_setWaitlistEntry st e0.id
              (fun w => { w with notifiedAt := some now }) (fun _ h => h)]
            exact hnodup
          rcases ih _ hnodup1 x hx with hx1 | ⟨e, he, hid, hpend, hsend, hxe⟩
          · -- x came through the marking map over st.waitlist
            obtain ⟨y, hy, hxy⟩ := List.mem_map.mp hx1
            by_cases hyid : y.id = e0.id
            · have hye0 : y = e0 := nodup_map_inj hnodup hy he0mem hyid
              simp only [if_pos hyid] at hxy
              refine Or.inr ⟨e0, he0mem, ?_, he0pend, hs, ?_⟩
              · rw [← hxy, hye0]
              · rw [← hxy, hye0]
            · simp only [if_neg hyid] at hxy
              subst hxy
              exact Or.inl hy
          · -- the recursive call marked e, an entry of st1
            obtain ⟨y, hy, hey⟩ := List.mem_map.mp he
            by_cases hyid : y.id = e0.id
            · simp only [if_pos hyid] at hey
              rw [← hey] at hpend
              simp [pendingFor] at hpend
            · simp only [if_neg hyid] at hey
              subst hey
              exact Or.inr ⟨y, hy, hid, hpend, hsend, hxe⟩
        · simp only [if_neg hs] at hx
          exact Or.inl hx

theorem pendingFor_notifiedAt {bookId : Nat} {e : WaitlistEntry}
    (h : pendingFor bookId e = true) : e.notifiedAt = none := by
  unfold pendingFor at h
  simp only [Bool.and_eq_true, Option.isNone_iff_eq_none] at h
  exact h.2

theorem waitlistLoop_notified_mono (orc : Oracles) (now : Int) (book : Book) :
    ∀ (n : Nat) (st : LibState) (e : WaitlistEntry),
      notifiedIn st e → notifiedIn (waitlistLoop orc now book n st).1 e := by
  intro n
  induction n with
  | zero => intro st e h; exact h
  | succ n ih =>
    intro st e h
    rw [waitlistLoop]
    rcases hnext : nextWaitlistEntry st book.id with _ | e0
    · simp only [hnext]; exact h
    · simp only [hnext]
      rcases hu : findUser st e0.userId with _ | u
      · simp only [hu]; exact h
      · simp only [hu]
        by_cases hs : orc.sendWaitlist e0.userId book.id
        · simp only [if_pos hs]
          apply ih
          obtain ⟨y, hy, hyid, hysome⟩ := h
          refine ⟨if y.id = e0.id then { y with notifiedAt := some now } else y, ?_, ?_, ?_⟩
          · exact List.mem_map_of_mem _ hy
          · have hpid : (if y.id = e0.id then
                ({ y with notifiedAt := some now } : WaitlistEntry) else y).id = y.id := by
              by_cases hc : y.id = e0.id <;> simp [hc]
            rw [hpid, hyid]
          · by_cases hc : y.id = e0.id <;> simp [hc, hysome]
        · simp only [if_neg hs]; exact h

theorem waitlistLoop_fifo (orc : Oracles) (now : Int) (book : Book) :
    ∀ (n : Nat) (st : LibState), (st.waitlist.map WaitlistEntry.id).Nodup →
      ∀ e ∈ st.waitlist, ∀ e2 ∈ st.waitlist,
        pendingFor book.id e = true → pendingFor book.id e2 = true →
        e2.createdAt < e.createdAt →
        notifiedIn (waitlistLoop orc now book n st).1 e →
        notifiedIn (waitlistLoop orc now book n st).1 e2 := by
  intro n
  induction n with
  | zero =>
    intro st hnodup e he e2 _ hpend _ _ hnot
    obtain ⟨y, hy, hyid, hysome⟩ := hnot
    have : y = e := nodup_map_inj hnodup hy he hyid
    subst this
    rw [pendingFor_notifiedAt hpend] at hysome
    simp at hysome
  | succ n ih =>
    intro st hnodup e he e2 he2 hpend hpend2 hlt hnot
    rw [waitlistLoop] at hnot ⊢
    rcases hnext : nextWaitlistEntry st book.id with _ | e0
    · -- queue empty: nothing was pending, contradicting e pending
      unfold nextWaitlistEntry at hnext
      rw [pickOldest_eq_none] at hnext
      have : e ∈ st.waitlist.filter (pendingFor book.id) :=
        List.mem_filter.mpr ⟨he, hpend⟩
      rw [hnext] at this
      cases this
    · simp only [hnext] at hnot ⊢
      obtain ⟨he0mem, he0pend, he0min⟩ := nextWaitlistEntry_spec hnext
      have hcontra : ∀ x ∈ st.waitlist, x.id = e.id → x.notifiedAt.isSome = true → False := by
        intro x hx hxid hxsome
        have : x = e := nodup_map_inj hnodup hx he hxid
        subst this
        rw [pendingFor_notifiedAt hpend] at hxsome
        simp at hxsome
      rcases hu : findUser st e0.userId with _ | u
      · simp only [hu] at hnot
        obtain ⟨y, hy, hyid, hysome⟩ := hnot
        exact (hcontra y hy hyid hysome).elim
      · simp only [hu] at hnot ⊢
        by_cases hs : orc.sendWaitlist e0.userId book.id
        · simp only [if_pos hs] at hnot ⊢
          by_cases hee0 : e = e0
          · -- e is the minimal pending entry, yet e2 is older: impossible
            subst hee0
            exact absurd (he0min e2 he2 hpend2) (not_le_of_lt hlt)
          · have hne : e.id ≠ e0.id := by
              intro h
              exact hee0 (nodup_map_inj hnodup he he0mem h)
            have hnodup1 : ((setWaitlistEntry st e0.id
                (fun w => { w with notifiedAt := some now })).waitlist.map
                  WaitlistEntry.id).Nodup := by
              rw [waitlistIds_setWaitlistEntry st e0.id
                (fun w => { w with notifiedAt := some now }) (fun _ h => h)]
              exact hnodup
            have hmem1 : e ∈ (setWaitlistEntry st e0.id
                (fun w => { w with notifiedAt := some now })).waitlist :=
              List.mem_map.mpr ⟨e, he, by simp [hne]⟩
            by_cases hee2 : e2 = e0
            · -- e2 is the entry marked this round; it stays notified
              subst hee2
              apply waitlistLoop_notified_mono
              refine ⟨{ e2 with notifiedAt := some now }, ?_, rfl, rfl⟩
              exact List.mem_map.mpr ⟨e2, he2, by simp⟩
            · have hne2 : e2.id ≠ e0.id := by
                intro h
                exact hee2 (nodup_map_inj hnodup he2 he0mem h)
              have hmem2 : e2 ∈ (setWaitlistEntry st e0.id
                  (fun w => { w with notifiedAt := some now })).waitlist :=
                List.mem_map.mpr ⟨e2, he2, by simp [hne2]⟩
              exact ih _ hnodup1 e hmem1 e2 hmem2 hpend hpend2 hlt hnot
        · simp only [if_neg hs] at hnot
          obtain ⟨y, hy, hyid, hysome⟩ := hnot
          exact (hcontra y hy hyid hysome).elim

theorem waitlistLoop_stop (orc : Oracles) (now : Int) (book : Book) :
    ∀ (n : Nat) (st : LibState), (waitlistLoop orc now book n st).2 < n →
      ∀ e, nextWaitlistEntry (waitlistLoop orc now book n st).1 book.id = some e →
        findUser st e.userId = none ∨ orc.sendWaitlist e.userId book.id = false := by
  intro n
  induction n with
  | zero => intro st h; omega
  | succ n ih =>
    intro st hlt e hnext'
    rw [waitlistLoop] at hlt hnext'
    rcases hnext : nextWaitlistEntry st book.id with _ | e0
    · simp only [hnext] at hnext'
      cases hnext'
    · simp only [hnext] at hlt hnext'
      rcases hu : findUser st e0.userId with _ | u
      · simp only [hu] at hnext'
        rw [hnext'] at hnext
        injection hnext with h
        subst h
        exact Or.inl hu
      · simp only [hu] at hlt hnext'
        by_cases hs : orc.sendWaitlist e0.userId book.id
        · simp only [if_pos hs] at hlt hnext'
          have := ih (setWaitlistEntry st e0.id
            (fun w => { w with notifiedAt := some now })) (by omega) e hnext'
          rcases this with h | h
          · left
            unfold findUser at h ⊢
            exact h
          · exact Or.inr h
        · simp only [if_neg hs] at hnext'
          rw [hnext'] at hnext
          injection hnext with h
          subst h
          exact Or.inr (by simpa using hs)

-- ── checkout lemmas ─────────────────────────────────────────────────

theorem loans_append_filter_fresh (st : LibState) (loan : Loan)
    (hid : loan.id = freshLoanId st) :
    (st.loans ++ [loan]).filter (fun l => !(l.id == freshLoanId st)) = st.loans := by
  rw [List.filter_append]
  have h1 : st.loans.filter (fun l => !(l.id == freshLoanId st)) = st.loans := by
    apply List.filter_eq_self.mpr
    intro l hl
    simp [freshLoanId_not_mem st l hl]
  have h2 : [loan].filter (fun l => !(l.id == freshLoanId st)) = ([] : List Loan) := by
    simp [List.filter, hid]
  rw [h1, h2, List.append_nil]

theorem loans_append_setLoan_fresh (st : LibState) (loan loanF : Loan)
    (hid : loan.id = freshLoanId st) :
    (st.loans ++ [loan]).map
      (fun l => if l.id = freshLoanId st then loanF else l) = st.loans ++ [loanF] := by
  rw [List.map_append]
  have h1 : st.loans.map (fun l => if l.id = freshLoanId st then loanF else l) =
      st.loans := by
    have := List.map_congr_left
      (fun l hl => by simp [freshLoanId_not_mem st l hl] :
        ∀ l ∈ st.loans, (if l.id = freshLoanId st then loanF else l) = id l)
    rw [this, List.map_id]
  have h2 : [loan].map (fun l => if l.id = freshLoanId st then loanF else l) = [loanF] := by
    simp [hid]
  rw [h1, h2]

theorem fulfillWaitlistEntry_frame (st : LibState) (userId bookId : Nat) :
    (fulfillWaitlistEntry st userId bookId).users = st.users ∧
    (fulfillWaitlistEntry st userId bookId).books = st.books ∧
    (fulfillWaitlistEntry st userId bookId).loans = st.loans ∧
    (fulfillWaitlistEntry st userId bookId).deletedFiles = st.deletedFiles := by
  unfold fulfillWaitlistEntry
  split
  · exact ⟨rfl, rfl, rfl, rfl⟩
  · exact ⟨rfl, rfl, rfl, rfl⟩

/-- Every run of `checkout_book` either rejects with the state unchanged
(every policy rejection and the artifact-rollback path alike) or appends
exactly one fresh active loan for the requested book, after having checked
a copy was free. -/
theorem checkout_book_cases (cfg : Config) (orc : Oracles) (st : LibState) (now : Int)
    (user : User) (bookId : Nat) :
    (∃ e, checkout_book cfg orc st now user bookId = (st, .error e)) ∨
    ∃ book lf,
      findBook st bookId = some book ∧
      book.is_available st = true ∧
      (activeLoanCount st book.id : Int) < book.ownedCopies ∧
      lf.bookId = book.id ∧ lf.isActive = true ∧ lf.id = freshLoanId st ∧
      (checkout_book cfg orc st now user bookId).1.loans = st.loans ++ [lf] ∧
      (checkout_book cfg orc st now user bookId).1.books = st.books ∧
      (checkout_book cfg orc st now user bookId).1.users = st.users ∧
      (checkout_book cfg orc st now user bookId).2 = .ok lf := by
  unfold checkout_book
  rcases hfb : findBook st bookId with _ | book
  · exact Or.inl ⟨.bookUnavailable, rfl⟩
  · dsimp only
    split
    · exact Or.inl ⟨.bookUnavailable, rfl⟩
    split
    · exact Or.inl ⟨.restrictedTitle, rfl⟩
    split
    · exact Or.inl ⟨.patronIneligible, rfl⟩
    split
    · exact Or.inl ⟨.loanLimitReached, rfl⟩
    split
    · exact Or.inl ⟨.duplicateActiveLoan, rfl⟩
    split
    · exact Or.inl ⟨.noCopiesAvailable, rfl⟩
    rename_i hav _ _ _ _ hcount
    have havail : book.is_available st = true := by
      revert hav
      cases book.is_available st <;> simp
    have hnid : (newLoanRow cfg st now user book).id = freshLoanId st := rfl
    rcases hgen : orc.generateCirculation (newLoanRow cfg st now user book).id
      with _ | fname
    · dsimp only
      refine Or.inl ⟨.artifactUnavailable, ?_⟩
      rw [Prod.mk.injEq]
      refine ⟨?_, rfl⟩
      have hfilter := loans_append_filter_fresh st (newLoanRow cfg st now user book) rfl
      simp only [hnid]
      rw [hfilter]
    · dsimp only
      refine Or.inr ⟨book, { newLoanRow cfg st now user book with
        circulationFilename := some fname }, rfl, havail, not_le.mp hcount,
        rfl, rfl, rfl, ?_, ?_, ?_, rfl⟩
      · rw [(fulfillWaitlistEntry_frame _ _ _).2.2.1]
        unfold setLoan
        dsimp only
        simp only [hnid]
        exact loans_append_setLoan_fresh st _ _ rfl
      · rw [(fulfillWaitlistEntry_frame _ _ _).2.1]
        rfl
      · rw [(fulfillWaitlistEntry_frame _ _ _).1]
        rfl

-- ── renewal / return / invalidation lemmas ──────────────────────────

theorem renew_loan_spec (cfg : Config) (st : LibState) (now : Int) (loanId : Nat)
    (loan : Loan) (hfind : findLoan st loanId = some loan) :
    (loan.isActive = false → renew_loan cfg st now loanId = (st, .error .loanNotActive)) ∧
    (loan.isActive = true → loan.invalidated = true →
      renew_loan cfg st now loanId = (st, .error .loanInvalidated)) ∧
    (loan.isActive = true → loan.invalidated = false → loan.is_expired now = true →
      renew_loan cfg st now loanId = (st, .error .loanExpired)) ∧
    (loan.isActive = true → loan.invalidated = false → loan.is_expired now = false →
      loan.renewalCount ≥ loan.maxRenewals →
      renew_loan cfg st now loanId = (st, .error .renewalsExhausted)) ∧
    (loan.isActive = true → loan.invalidated = false → loan.is_expired now = false →
      loan.renewalCount < loan.maxRenewals →
      renew_loan cfg st now loanId =
        (setLoan st loanId (fun _ => renewedLoan cfg st loan),
         .ok (renewedLoan cfg st loan))) := by
  unfold renew_loan
  simp only [hfind]
  refine ⟨?_, ?_, ?_, ?_, ?_⟩
  · intro h
    simp [h]
  · intro h1 h2
    simp [h1, h2]
  · intro h1 h2 h3
    simp [h1, h2, h3]
  · intro h1 h2 h3 h4
    simp [h1, h2, h3, h4]
  · intro h1 h2 h3 h4
    simp only [h1, h2, h3, Bool.not_true, Bool.false_eq_true, if_false,
      not_le.mpr h4, if_neg (not_le.mpr h4)]
    simp [renewedLoan, loanPeriodDays, h1, h2]

theorem return_loan_spec (orc : Oracles) (st : LibState) (now : Int) (loanId : Nat)
    (loan : Loan) (hfind : findLoan st loanId = some loan) :
    (loan.isActive = false → return_loan orc st now loanId = (st, some .loanNotActive)) ∧
    (loan.isActive = true →
      (return_loan orc st now loanId).1.loans =
        st.loans.map (fun l => if l.id = loanId then
          { l with isActive := false, returnedAt := some now } else l) ∧
      (return_loan orc st now loanId).1.books = st.books ∧
      (return_loan orc st now loanId).1.users = st.users ∧
      (return_loan orc st now loanId).2 = none) := by
  unfold return_loan
  simp only [hfind]
  constructor
  · intro h
    simp [h]
  · intro h
    simp only [h, Bool.not_true, Bool.false_eq_true, if_false]
    have hframe : ∀ stx : LibState,
        (match findBook stx loan.bookId with
          | some book => ((process_waitlist orc stx now book).1, none)
          | none => (stx, (none : Option LendingError))).1.loans = stx.loans ∧
        (match findBook stx loan.bookId with
          | some book => ((process_waitlist orc stx now book).1, none)
          | none => (stx, (none : Option LendingError))).1.books = stx.books ∧
        (match findBook stx loan.bookId with
          | some book => ((process_waitlist orc stx now book).1, none)
          | none => (stx, (none : Option LendingError))).1.users = stx.users ∧
        (match findBook stx loan.bookId with
          | some book => ((process_waitlist orc stx now book).1, none)
          | none => (stx, (none : Option LendingError))).2 = none := by
      intro stx
      rcases hb : findBook stx loan.bookId with _ | book
      · simp [hb]
      · simp only [hb]
        have := process_waitlist_frame orc stx now book
        exact ⟨this.2.2.1, this.2.1, this.1, trivial⟩
    refine ⟨?_, ?_, ?_, ?_⟩
    · rw [(hframe _).1, (deleteCirculationFile_frame _ _).2.2.1]
      rfl
    · rw [(hframe _).2.1, (deleteCirculationFile_frame _ _).2.1]
      rfl
    · rw [(hframe _).2.2.1, (deleteCirculationFile_frame _ _).1]
      rfl
    · exact (hframe _).2.2.2

theorem loan_invalidate_spec (orc : Oracles) (st : LibState) (now : Int) (loanId : Nat)
    (loan : Loan) (reason : String) (hfind : findLoan st loanId = some loan)
    (hr1 : ¬pyStrip reason = "") (hr2 : reason.length ≤ 500) :
    (loan_invalidate orc st now loanId reason).1.loans =
      st.loans.map (fun l => if l.id = loanId then
        { l with invalidated := true, invalidatedReason := some (pyStrip reason),
                 isActive := false, returnedAt := some now } else l) ∧
    (loan_invalidate orc st now loanId reason).1.books = st.books ∧
    (loan_invalidate orc st now loanId reason).2 = true := by
  unfold loan_invalidate
  simp only [hfind]
  have hcond : (pyStrip reason == "" || decide (reason.length > 500)) = false := by
    simp [hr1]
    omega
  simp only [hcond, Bool.false_eq_true, if_false]
  have hframe : ∀ stx : LibState,
      (match findBook stx loan.bookId with
        | some book => ((process_waitlist orc stx now book).1, true)
        | none => (stx, true)).1.loans = stx.loans ∧
      (match findBook stx loan.bookId with
        | some book => ((process_waitlist orc stx now book).1, true)
        | none => (stx, true)).1.books = stx.books ∧
      (match findBook stx loan.bookId with
        | some book => ((process_waitlist orc stx now book).1, true)
        | none => (stx, true)).2 = true := by
    intro stx
    rcases hb : findBook stx loan.bookId with _ | book
    · simp [hb]
    · simp only [hb]
      have := process_waitlist_frame orc stx now book
      exact ⟨this.2.2.1, this.2.1, trivial⟩
  refine ⟨?_, ?_, ?_⟩
  · rw [(hframe _).1, (deleteCirculationFile_frame _ _).2.2.1]
    rfl
  · rw [(hframe _).2.1, (deleteCirculationFile_frame _ _).2.1]
    rfl
  · exact (hframe _).2.2

-- ── per-operation state shapes ──────────────────────────────────────

theorem renew_loan_state (cfg : Config) (st : LibState) (now : Int) (loanId : Nat) :
    (renew_loan cfg st now loanId).1 = st ∨
    ∃ loan, findLoan st loanId = some loan ∧ loan.isActive = true ∧
      (renew_loan cfg st now loanId).1 =
        setLoan st loanId (fun _ => renewedLoan cfg st loan) := by
  rcases hfind : findLoan st loanId with _ | loan
  · left
    unfold renew_loan
    simp only [hfind]
  · have hspec := renew_loan_spec cfg st now loanId loan hfind
    cases hact : loan.isActive
    · left
      rw [hspec.1 hact]
    · cases hinv : loan.invalidated
      · cases hexp : loan.is_expired now
        · by_cases hmax : loan.renewalCount < loan.maxRenewals
          · right
            exact ⟨loan, rfl, hact, by rw [hspec.2.2.2.2 hact hinv hexp hmax]⟩
          · left
            rw [hspec.2.2.2.1 hact hinv hexp (not_lt.mp hmax)]
        · left
          rw [hspec.2.2.1 hact hinv hexp]
      · left
        rw [hspec.2.1 hact hinv]

theorem return_loan_state (orc : Oracles) (st : LibState) (now : Int) (loanId : Nat) :
    (return_loan orc st now loanId).1 = st ∨
    ((return_loan orc st now loanId).1.loans =
        st.loans.map (fun l => if l.id = loanId then
          { l with isActive := false, returnedAt := some now } else l) ∧
      (return_loan orc st now loanId).1.books = st.books) := by
  rcases hfind : findLoan st loanId with _ | loan
  · left
    unfold return_loan
    simp only [hfind]
  · have hspec := return_loan_spec orc st now loanId loan hfind
    cases hact : loan.isActive
    · left
      rw [hspec.1 hact]
    · right
      exact ⟨(hspec.2 hact).1, (hspec.2 hact).2.1⟩

theorem loan_invalidate_state (orc : Oracles) (st : LibState) (now : Int) (loanId : Nat)
    (reason : String) :
    (loan_invalidate orc st now loanId reason).1 = st ∨
    ((loan_invalidate orc st now loanId reason).1.loans =
        st.loans.map (fun l => if l.id = loanId then
          { l with invalidated := true, invalidatedReason := some (pyStrip reason),
                   isActive := false, returnedAt := some now } else l) ∧
      (loan_invalidate orc st now loanId reason).1.books = st.books) := by
  rcases hfind : findLoan st loanId with _ | loan
  · left
    unfold loan_invalidate
    simp only [hfind]
  · by_cases hcond : (pyStrip reason == "" || decide (reason.length > 500)) = true
    · left
      unfold loan_invalidate
      simp only [hfind, hcond, if_true]
    · have hr : ¬pyStrip reason = "" ∧ reason.length ≤ 500 := by
        simp only [Bool.or_eq_true, not_or] at hcond
        constructor
        · simpa using hcond.1
        · have := hcond.2
          simp at this
          omega
      have hspec := loan_invalidate_spec orc st now loanId loan reason hfind hr.1 hr.2
      exact Or.inr ⟨hspec.1, hspec.2.1⟩

-- ── counting helpers for state shapes ───────────────────────────────

theorem activeLoanCount_of_map_le (st st' : LibState) (f : Loan → Loan) (b : Nat)
    (h : st'.loans = st.loans.map f)
    (hf : ∀ l ∈ st.loans, ((f l).bookId == b && (f l).isActive) = true →
      (l.bookId == b && l.isActive) = true) :
    activeLoanCount st' b ≤ activeLoanCount st b := by
  unfold activeLoanCount
  rw [h]
  exact length_filter_map_le f _ st.loans hf

theorem activeLoanCount_append_loan (st st' : LibState) (lf : Loan)
    (h : st'.loans = st.loans ++ [lf]) (b : Nat) :
    activeLoanCount st' b =
      activeLoanCount st b + (if lf.bookId == b && lf.isActive then 1 else 0) := by
  unfold activeLoanCount
  rw [h, List.filter_append]
  by_cases hp : (lf.bookId == b && lf.isActive) = true <;>
    simp [List.filter, hp]

theorem loanIds_of_map (st st' : LibState) (f : Loan → Loan)
    (h : st'.loans = st.loans.map f) (hf : ∀ l ∈ st.loans, (f l).id = l.id) :
    st'.loans.map Loan.id = st.loans.map Loan.id := by
  rw [h, List.map_map]
  exact List.map_congr_left (fun l hl => hf l hl)

theorem nodup_loanIds_append (st st' : LibState) (lf : Loan)
    (h : st'.loans = st.loans ++ [lf]) (hfresh : lf.id = freshLoanId st)
    (hnodup : (st.loans.map Loan.id).Nodup) :
    (st'.loans.map Loan.id).Nodup := by
  rw [h, List.map_append]
  apply List.Nodup.append hnodup (List.nodup_singleton _)
  intro a ha hb
  obtain ⟨l, hl, rfl⟩ := List.mem_map.mp ha
  simp only [List.map_cons, List.map_nil, List.mem_singleton] at hb
  exact freshLoanId_not_mem st l hl (hb.trans hfresh)

-- ── one-step preservation ───────────────────────────────────────────

theorem stepOp_frame (cfg : Config) (orc : Oracles) (st : LibState) (op : Op)
    (hwf : WFState st) :
    (stepOp cfg orc st op).books = st.books ∧ WFState (stepOp cfg orc st op) := by
  obtain ⟨hbn, hln⟩ := hwf
  cases op with
  | checkoutOp now user bookId =>
    rcases checkout_book_cases cfg orc st now user bookId with ⟨e, he⟩ |
      ⟨bk, lf, hfb, hav, hcnt, hbk, hact, hfresh, hloans, hbooks, husers, hok⟩
    · simp only [stepOp]
      rw [he]
      exact ⟨rfl, hbn, hln⟩
    · simp only [stepOp]
      refine ⟨hbooks, ?_, ?_⟩
      · rw [hbooks]
        exact hbn
      · exact nodup_loanIds_append st _ lf hloans hfresh hln
  | renewOp now loanId =>
    rcases renew_loan_state cfg st now loanId with h | ⟨loan, hfind, hact, h⟩
    · simp only [stepOp]
      rw [h]
      exact ⟨rfl, hbn, hln⟩
    · simp only [stepOp]
      rw [h]
      refine ⟨setLoan_books _ _ _, ?_, ?_⟩
      · rw [setLoan_books]
        exact hbn
      · rw [loanIds_setLoan st loanId (fun _ => renewedLoan cfg st loan)
          (fun _ _ => (findLoan_eq_some hfind).2)]
        exact hln
  | returnOp now loanId =>
    rcases return_loan_state orc st now loanId with h | ⟨hloans, hbooks⟩
    · simp only [stepOp]
      rw [h]
      exact ⟨rfl, hbn, hln⟩
    · simp only [stepOp]
      refine ⟨hbooks, ?_, ?_⟩
      · rw [hbooks]
        exact hbn
      · rw [loanIds_of_map st _ _ hloans
          (fun l _ => by by_cases hid : l.id = loanId <;> simp [hid])]
        exact hln
  | expireOp now =>
    simp only [stepOp]
    refine ⟨?_, ?_, ?_⟩
    · exact expireFold_books orc now _ (st, 0, 0)
    · rw [show ((expire_loans orc st now).1.books) = st.books from
        expireFold_books orc now _ (st, 0, 0)]
      exact hbn
    · rw [show ((expire_loans orc st now).1.loans.map Loan.id) = st.loans.map Loan.id from
        expireFold_loanIds orc now _ (st, 0, 0)]
      exact hln
  | invalidateOp now loanId reason =>
    rcases loan_invalidate_state orc st now loanId reason with h | ⟨hloans, hbooks⟩
    · simp only [stepOp]
      rw [h]
      exact ⟨rfl, hbn, hln⟩
    · simp only [stepOp]
      refine ⟨hbooks, ?_, ?_⟩
      · rw [hbooks]
        exact hbn
      · rw [loanIds_of_map st _ _ hloans
          (fun l _ => by by_cases hid : l.id = loanId <;> simp [hid])]
        exact hln
  | waitlistOp now bookId =>
    simp only [stepOp]
    split
    · rename_i book heq
      have h := process_waitlist_frame orc st now book
      refine ⟨h.2.1, ?_, ?_⟩
      · rw [h.2.1]; exact hbn
      · rw [h.2.2.1]; exact hln
    · exact ⟨rfl, hbn, hln⟩

theorem stepOp_inv (cfg : Config) (orc : Oracles) (st : LibState) (op : Op)
    (hwf : WFState st) (hinv : CopyInvariant st) :
    CopyInvariant (stepOp cfg orc st op) := by
  obtain ⟨hbn, hln⟩ := hwf
  have hbooks := (stepOp_frame cfg orc st op ⟨hbn, hln⟩).1
  intro b hb
  rw [hbooks] at hb
  have hle := hinv b hb
  cases op with
  | checkoutOp now user bookId =>
    rcases checkout_book_cases cfg orc st now user bookId with ⟨e, he⟩ |
      ⟨bk, lf, hfb, hav, hcnt, hbk, hact, hfresh, hloans, _, _, _⟩
    · simp only [stepOp]
      rw [he]
      exact hle
    · simp only [stepOp]
      rw [activeLoanCount_append_loan st _ lf hloans b.id]
      by_cases hbid : b.id = bk.id
      · obtain ⟨hbkmem, hbkid⟩ := findBook_eq_some hfb
        have hbbk : b = bk := nodup_map_inj hbn hb hbkmem hbid
        have hone : (if lf.bookId == b.id && lf.isActive then 1 else 0) = 1 := by
          simp [hbk, hact, hbid]
        rw [hone]
        rw [hbbk]
        push_cast
        omega
      · have hzero : (if lf.bookId == b.id && lf.isActive then 1 else 0) = 0 := by
          have : (lf.bookId == b.id) = false := by
            rw [hbk]
            simp
            exact fun h => hbid h.symm
          simp [this]
        rw [hzero]
        simpa using hle
  | renewOp now loanId =>
    rcases renew_loan_state cfg st now loanId with h | ⟨loan, hfind, hact, h⟩
    · simp only [stepOp]
      rw [h]
      exact hle
    · simp only [stepOp]
      rw [h, activeLoanCount_setLoan_eq]
      · exact hle
      · intro l hl hid
        have hleq : l = loan := nodup_map_inj hln hl (findLoan_eq_some hfind).1
          (hid.trans (findLoan_eq_some hfind).2.symm)
        rw [hleq]
        rfl
  | returnOp now loanId =>
    rcases return_loan_state orc st now loanId with h | ⟨hloans, _⟩
    · simp only [stepOp]
      rw [h]
      exact hle
    · simp only [stepOp]
      refine le_trans ?_ hle
      have := activeLoanCount_of_map_le st _ _ b.id hloans ?_
      · exact_mod_cast this
      · intro l _ hp
        by_cases hid : l.id = loanId
        · simp [hid] at hp
        · simp [hid] at hp ⊢
          exact hp
  | expireOp now =>
    simp only [stepOp]
    refine le_trans ?_ hle
    exact_mod_cast expireFold_count_le orc now _ (st, 0, 0) b.id
  | invalidateOp now loanId reason =>
    rcases loan_invalidate_state orc st now loanId reason with h | ⟨hloans, _⟩
    · simp only [stepOp]
      rw [h]
      exact hle
    · simp only [stepOp]
      refine le_trans ?_ hle
      have := activeLoanCount_of_map_le st _ _ b.id hloans ?_
      · exact_mod_cast this
      · intro l _ hp
        by_cases hid : l.id = loanId
        · simp [hid] at hp
        · simp [hid] at hp ⊢
          exact hp
  | waitlistOp now bookId =>
    simp only [stepOp]
    split
    · rw [activeLoanCount_eq_of_loans (process_waitlist_frame _ _ _ _).2.2.1]
      exact hle
    · exact hle

-- ── one-step loan tracking ──────────────────────────────────────────

theorem expireOne_tracks (orc : Oracles) (now : Int) (s : LibState) (a : Loan) :
    ∀ l ∈ s.loans, ∃ l' ∈ (expireOne orc now s a).loans, l'.id = l.id ∧
      (l.isActive = false → l'.isActive = false) ∧
      (l.invalidated = true → l'.invalidated = true) := by
  intro l hl
  unfold expireOne
  rw [(expireWaitlist_frame _ _ _ _).2.2.1]
  rcases expireNotice_cases orc (expireMark now s a) a with h | h
  · rw [h]
    by_cases hid : l.id = a.id
    · exact ⟨_, mem_setLoan_self a.id _ hl hid, rfl, fun _ => rfl, fun hi => hi⟩
    · exact ⟨l, mem_setLoan_of_ne a.id _ hl hid, rfl, fun x => x, fun x => x⟩
  · rw [h]
    by_cases hid : l.id = a.id
    · have h1 := mem_setLoan_self a.id
        (fun x => { x with isActive := false, returnedAt := some now }) hl hid
      exact ⟨_, mem_setLoan_self a.id _ h1 hid, rfl, fun _ => rfl, fun hi => hi⟩
    · have h1 := mem_setLoan_of_ne a.id
        (fun x => { x with isActive := false, returnedAt := some now }) hl hid
      exact ⟨l, mem_setLoan_of_ne a.id _ h1 hid, rfl, fun x => x, fun x => x⟩

theorem expireFold_tracks (orc : Oracles) (now : Int) :
    ∀ (todo : List Loan) (acc : LibState × Nat × Nat) (l : Loan), l ∈ acc.1.loans →
      ∃ l' ∈ (todo.foldl (expireStep orc now) acc).1.loans, l'.id = l.id ∧
        (l.isActive = false → l'.isActive = false) ∧
        (l.invalidated = true → l'.invalidated = true) := by
  intro todo
  induction todo with
  | nil => intro acc l hl; exact ⟨l, hl, rfl, fun x => x, fun x => x⟩
  | cons a todo ih =>
    intro acc l hl
    simp only [List.foldl_cons]
    have hstep : ∃ l1 ∈ (expireStep orc now acc a).1.loans, l1.id = l.id ∧
        (l.isActive = false → l1.isActive = false) ∧
        (l.invalidated = true → l1.invalidated = true) := by
      unfold expireStep
      split
      · exact ⟨l, hl, rfl, fun x => x, fun x => x⟩
      · rw [(deleteCirculationFile_frame _ _).2.2.1]
        exact expireOne_tracks orc now acc.1 a l hl
    obtain ⟨l1, hl1, hid1, hact1, hinv1⟩ := hstep
    obtain ⟨l2, hl2, hid2, hact2, hinv2⟩ := ih (expireStep orc now acc a) l1 hl1
    exact ⟨l2, hl2, hid2.trans hid1, fun h => hact2 (hact1 h), fun h => hinv2 (hinv1 h)⟩

theorem stepOp_tracks (cfg : Config) (orc : Oracles) (st : LibState) (op : Op)
    (hwf : WFState st) :
    ∀ l ∈ st.loans, ∃ l' ∈ (stepOp cfg orc st op).loans, l'.id = l.id ∧
      (l.isActive = false → l'.isActive = false) ∧
      (l.invalidated = true → l'.invalidated = true) := by
  obtain ⟨hbn, hln⟩ := hwf
  intro l hl
  cases op with
  | checkoutOp now user bookId =>
    rcases checkout_book_cases cfg orc st now user bookId with ⟨e, he⟩ |
      ⟨bk, lf, hfb, hav, hcnt, hbk, hact, hfresh, hloans, _, _, _⟩
    · simp only [stepOp]
      rw [he]
      exact ⟨l, hl, rfl, fun x => x, fun x => x⟩
    · simp only [stepOp]
      refine ⟨l, ?_, rfl, fun x => x, fun x => x⟩
      rw [hloans]
      exact List.mem_append_left _ hl
  | renewOp now loanId =>
    rcases renew_loan_state cfg st now loanId with h | ⟨loan, hfind, hact, h⟩
    · simp only [stepOp]
      rw [h]
      exact ⟨l, hl, rfl, fun x => x, fun x => x⟩
    · simp only [stepOp]
      rw [h]
      by_cases hid : l.id = loanId
      · have hleq : l = loan := nodup_map_inj hln hl (findLoan_eq_some hfind).1
          (hid.trans (findLoan_eq_some hfind).2.symm)
        refine ⟨renewedLoan cfg st loan, mem_setLoan_self loanId _ hl hid, ?_, ?_, ?_⟩
        · rw [hleq]
          rfl
        · intro hf
          rw [hleq, hact] at hf
          cases hf
        · intro hi
          rw [hleq] at hi
          exact hi
      · exact ⟨l, mem_setLoan_of_ne loanId _ hl hid, rfl, fun x => x, fun x => x⟩
  | returnOp now loanId =>
    rcases return_loan_state orc st now loanId with h | ⟨hloans, _⟩
    · simp only [stepOp]
      rw [h]
      exact ⟨l, hl, rfl, fun x => x, fun x => x⟩
    · simp only [stepOp]
      by_cases hid : l.id = loanId
      · refine ⟨{ l with isActive := false, returnedAt := some now }, ?_, rfl,
          fun _ => rfl, fun x => x⟩
        rw [hloans]
        exact List.mem_map.mpr ⟨l, hl, by simp [hid]⟩
      · refine ⟨l, ?_, rfl, fun x => x, fun x => x⟩
        rw [hloans]
        exact List.mem_map.mpr ⟨l, hl, by simp [hid]⟩
  | expireOp now =>
    simp only [stepOp]
    exact expireFold_tracks orc now _ (st, 0, 0) l hl
  | invalidateOp now loanId reason =>
    rcases loan_invalidate_state orc st now loanId reason with h | ⟨hloans, _⟩
    · simp only [stepOp]
      rw [h]
      exact ⟨l, hl, rfl, fun x => x, fun x => x⟩
    · simp only [stepOp]
      by_cases hid : l.id = loanId
      · refine ⟨{ l with
            invalidated := true
            invalidatedReason := some (pyStrip reason)
            isActive := false
            returnedAt := some now }, ?_, rfl, fun _ => rfl, fun _ => rfl⟩
        rw [hloans]
        exact List.mem_map.mpr ⟨l, hl, by simp [hid]⟩
      · refine ⟨l, ?_, rfl, fun x => x, fun x => x⟩
        rw [hloans]
        exact List.mem_map.mpr ⟨l, hl, by simp [hid]⟩
  | waitlistOp now bookId =>
    simp only [stepOp]
    split
    · rw [(process_waitlist_frame _ _ _ _).2.2.1]
      exact ⟨l, hl, rfl, fun x => x, fun x => x⟩
    · exact ⟨l, hl, rfl, fun x => x, fun x => x⟩

-- ── sequence-level preservation ─────────────────────────────────────

theorem runOps_frame (cfg : Config) (orc : Oracles) :
    ∀ (ops : List Op) (st : LibState), WFState st →
      (runOps cfg orc st ops).books = st.books ∧ WFState (runOps cfg orc st ops) := by
  intro ops
  induction ops with
  | nil => intro st hwf; exact ⟨rfl, hwf⟩
  | cons op ops ih =>
    intro st hwf
    have h := stepOp_frame cfg orc st op hwf
    have h2 := ih _ h.2
    exact ⟨h2.1.trans h.1, h2.2⟩

theorem runOps_inv (cfg : Config) (orc : Oracles) :
    ∀ (ops : List Op) (st : LibState), WFState st → CopyInvariant st →
      CopyInvariant (runOps cfg orc st ops) := by
  intro ops
  induction ops with
  | nil => intro st _ hinv; exact hinv
  | cons op ops ih =>
    intro st hwf hinv
    exact ih _ (stepOp_frame cfg orc st op hwf).2 (stepOp_inv cfg orc st op hwf hinv)

theorem runOps_tracks (cfg : Config) (orc : Oracles) :
    ∀ (ops : List Op) (st : LibState), WFState st →
      ∀ l ∈ st.loans, ∃ l' ∈ (runOps cfg orc st ops).loans, l'.id = l.id ∧
        (l.isActive = false → l'.isActive = false) ∧
        (l.invalidated = true → l'.invalidated = true) := by
  intro ops
  induction ops with
  | nil => intro st _ l hl; exact ⟨l, hl, rfl, fun x => x, fun x => x⟩
  | cons op ops ih =>
    intro st hwf l hl
    obtain ⟨l1, hl1, hid1, hact1, hinv1⟩ := stepOp_tracks cfg orc st op hwf l hl
    obtain ⟨l2, hl2, hid2, hact2, hinv2⟩ :=
      ih _ (stepOp_frame cfg orc st op hwf).2 l1 hl1
    exact ⟨l2, hl2, hid2.trans hid1, fun h => hact2 (hact1 h), fun h => hinv2 (hinv1 h)⟩

theorem findLoan_of_map (st st' : LibState) (f : Loan → Loan) (loanId : Nat)
    (h : st'.loans = st.loans.map f) (hf : ∀ l, (f l).id = l.id) :
    findLoan st' loanId = (findLoan st loanId).map f := by
  unfold findLoan
  rw [h]
  apply find?_map_pred
  intro x
  rw [hf x]

-- ═══ Claim theorems ═════════════════════════════════════════════════

/-- C1: For every book, after any sequence of circulation operations
(checkout attempts, returns, renewals, expiry sweeps, invalidations,
waitlist fulfillment), the number of loans with `is_active = true` for that
book is at most the book's `owned_copies`; in particular, a checkout
attempted when the active-loan count already equals `owned_copies` is
rejected and creates no loan (the rejection comes from the `is_available`
check, whose availability conjunct is exactly the copy cap). -/
theorem C1_copy_limit_invariant (cfg : Config) (orc : Oracles) (ops : List Op)
    (st : LibState) (hwf : WFState st) (hinv : CopyInvariant st) :
    CopyInvariant (runOps cfg orc st ops) ∧
    ∀ (now : Int) (user : User) (bookId : Nat) (book : Book),
      findBook st bookId = some book →
      (activeLoanCount st book.id : Int) = book.ownedCopies →
      checkout_book cfg orc st now user bookId = (st, .error .bookUnavailable) := by
  constructor
  · exact runOps_inv cfg orc ops st hwf hinv
  · intro now user bookId book hfb hcnt
    have hav : book.is_available st = false := by
      unfold Book.is_available Book.available_copies Book.active_loan_count
      have h0 : book.ownedCopies - (activeLoanCount st book.id : Int) = 0 := by omega
      rw [h0]
      simp
    unfold checkout_book
    simp [hfb, hav]

/-- Witness for C1: the fully-loaned one-copy title `c3State`, driven
through a race (two checkout attempts, a sweep, a return). -/
theorem C1_copy_limit_invariant_witness :
    CopyInvariant (runOps defaultConfig okOracles c3State c1Ops) ∧
    ∀ (now : Int) (user : User) (bookId : Nat) (book : Book),
      findBook c3State bookId = some book →
      (activeLoanCount c3State book.id : Int) = book.ownedCopies →
      checkout_book defaultConfig okOracles c3State now user bookId =
        (c3State, .error .bookUnavailable) :=
  C1_copy_limit_invariant defaultConfig okOracles c1Ops c3State
    ⟨by decide, by decide⟩ (by unfold CopyInvariant; decide)

/-- C2: If artifact (circulation PDF) generation fails during a checkout,
the entire checkout is rolled back: the whole database state is exactly as
before the attempt, so no Loan row for the attempt exists afterward, and
every book's available-copy count equals its value before; the caller
receives the retryable artifact-unavailable error (the hypothesis). -/
theorem C2_artifact_rollback (cfg : Config) (orc : Oracles) (st : LibState) (now : Int)
    (user : User) (bookId : Nat)
    (hfail : (checkout_book cfg orc st now user bookId).2 = .error .artifactUnavailable) :
    (checkout_book cfg orc st now user bookId).1 = st ∧
    (∀ l, l ∈ (checkout_book cfg orc st now user bookId).1.loans ↔ l ∈ st.loans) ∧
    ∀ b : Book, b.available_copies (checkout_book cfg orc st now user bookId).1 =
      b.available_copies st := by
  have hstate : (checkout_book cfg orc st now user bookId).1 = st := by
    rcases checkout_book_cases cfg orc st now user bookId with ⟨e, he⟩ |
      ⟨bk, lf, _, _, _, _, _, _, _, _, _, hok⟩
    · rw [he]
    · rw [hok] at hfail
      cases hfail
  refine ⟨hstate, fun l => by rw [hstate], fun b => by rw [hstate]⟩

/-- Witness for C2: a checkout of the free copy in `c1State` under an
always-failing artifact generator. -/
theorem C2_artifact_rollback_witness :
    (checkout_book defaultConfig failingPdfOracles c1State 0 patron1 1).1 = c1State ∧
    (∀ l, l ∈ (checkout_book defaultConfig failingPdfOracles c1State 0 patron1 1).1.loans ↔
      l ∈ c1State.loans) ∧
    ∀ b : Book,
      b.available_copies (checkout_book defaultConfig failingPdfOracles c1State 0 patron1 1).1 =
        b.available_copies c1State :=
  C2_artifact_rollback defaultConfig failingPdfOracles c1State 0 patron1 1 (by decide)

/-- C3 counterexample: in `c3State` (visible, not disabled, not restricted
title with a master file, its single copy out to another patron, an eligible
requesting patron under the cap with no duplicate loan) the only violated
precondition in the claim's stated order is the final copy-cap check, whose
specific error kind is the no-copies error — but the code rejects with the
not-available error of its first check, because `Book.is_available` already
folds the copy check in.  The claim's ordering (copy check last, with its
own error kind) is therefore false on the code. -/
theorem C3_counterexample :
    checkoutClaimedError defaultConfig c3State patron1 1 =
      some LendingError.noCopiesAvailable ∧
    (checkout_book defaultConfig okOracles c3State 0 patron1 1).2 =
      Except.error LendingError.bookUnavailable ∧
    LendingError.bookUnavailable ≠ LendingError.noCopiesAvailable :=
  ⟨by decide, by decide, by decide⟩

/-- C3 (amended): checkout evaluates its preconditions in the code's order —
(1) the book exists and is available (visible, not disabled, a copy free,
master file on record); (2) not access-restricted; (3) patron eligible to
borrow; (4) patron below the per-patron cap; (5) no other active loan by
this patron for this title — and any violated precondition fails fast with
that check's specific error kind and performs no writes.  The dedicated
copy re-check after (5) is unreachable: availability in (1) already
guarantees a free copy (last conjunct), so a copy-cap violation always
surfaces as the not-available error of check (1). -/
theorem C3_amended_precondition_order (cfg : Config) (orc : Oracles) (st : LibState)
    (now : Int) (user : User) (bookId : Nat) :
    (findBook st bookId = none →
      checkout_book cfg orc st now user bookId = (st, .error .bookUnavailable)) ∧
    ∀ book, findBook st bookId = some book →
      (book.is_available st = false →
        checkout_book cfg orc st now user bookId = (st, .error .bookUnavailable)) ∧
      (book.is_available st = true → book.restrictedAccess = true →
        checkout_book cfg orc st now user bookId = (st, .error .restrictedTitle)) ∧
      (book.is_available st = true → book.restrictedAccess = false →
        user.can_borrow = false →
        checkout_book cfg orc st now user bookId = (st, .error .patronIneligible)) ∧
      (book.is_available st = true → book.restrictedAccess = false →
        user.can_borrow = true →
        ((st.loans.filter (fun l => l.userId == user.id && l.isActive)).length : Int) ≥
          cfg.maxLoansPerPatron.getD 5 →
        checkout_book cfg orc st now user bookId = (st, .error .loanLimitReached)) ∧
      (book.is_available st = true → book.restrictedAccess = false →
        user.can_borrow = true →
        ((st.loans.filter (fun l => l.userId == user.id && l.isActive)).length : Int) <
          cfg.maxLoansPerPatron.getD 5 →
        st.loans.any (fun l => l.userId == user.id && l.bookId == book.id && l.isActive) =
          true →
        checkout_book cfg orc st now user bookId = (st, .error .duplicateActiveLoan)) ∧
      (book.is_available st = true →
        (activeLoanCount st book.id : Int) < book.ownedCopies) := by
  constructor
  · intro hfb
    unfold checkout_book
    simp only [hfb]
  · intro book hfb
    have hcopy : book.is_available st = true →
        (activeLoanCount st book.id : Int) < book.ownedCopies := by
      intro hav
      unfold Book.is_available at hav
      simp only [Bool.and_eq_true, decide_eq_true_eq] at hav
      have h1 := hav.1.2
      unfold Book.available_copies Book.active_loan_count at h1
      rcases lt_max_iff.mp h1 with h | h
      · exact absurd h (lt_irrefl 0)
      · omega
    refine ⟨?_, ?_, ?_, ?_, ?_, hcopy⟩
    · intro hav
      unfold checkout_book
      simp [hfb, hav]
    · intro hav hres
      unfold checkout_book
      simp [hfb, hav, hres]
    · intro hav hres hel
      unfold checkout_book
      simp [hfb, hav, hres, hel]
    · intro hav hres hel hcap
      unfold checkout_book
      simp [hfb, hav, hres, hel, hcap]
    · intro hav hres hel hcap hdup
      unfold checkout_book
      simp [hfb, hav, hres, hel, not_le.mpr hcap, hdup]

/-- Witness for C3 (amended): the fully-loaned title of `c3State` is
rejected by the first (availability) check. -/
theorem C3_amended_precondition_order_witness :
    checkout_book defaultConfig okOracles c3State 0 patron1 1 =
      (c3State, .error .bookUnavailable) :=
  (((C3_amended_precondition_order defaultConfig okOracles c3State 0 patron1 1).2
    sampleBook (by decide)).1) (by decide)

/-- C4: During an expiry sweep over the overdue active loans, a failure
while processing one loan rolls back only that loan's changes — the loan
row survives verbatim, still active, to be retried on a later sweep — while
every other overdue loan is still processed and expired (`is_active` false,
`returned_at` set); and an artifact file is deleted during the sweep only
for a loan whose sub-transaction committed successfully. -/
theorem C4_expiry_batch_isolation (orc : Oracles) (st : LibState) (now : Int)
    (hnodup : (st.loans.map Loan.id).Nodup) :
    (∀ l ∈ st.loans, l.isActive = true → l.dueAt ≤ now →
      orc.expireStepFails l.id = true → l ∈ (expire_loans orc st now).1.loans) ∧
    (∀ l ∈ st.loans, l.isActive = true → l.dueAt ≤ now →
      orc.expireStepFails l.id = false →
      ∃ l' ∈ (expire_loans orc st now).1.loans,
        l'.id = l.id ∧ l'.isActive = false ∧ l'.returnedAt = some now) ∧
    (∀ fn, fn ∈ (expire_loans orc st now).1.deletedFiles → fn ∈ st.deletedFiles ∨
      ∃ l ∈ st.loans, l.isActive = true ∧ l.dueAt ≤ now ∧
        orc.expireStepFails l.id = false ∧ l.circulationFilename = some fn) := by
  have hsub : (((st.loans.filter
      (fun l => l.isActive && decide (l.dueAt ≤ now))).map Loan.id)).Nodup :=
    hnodup.sublist (List.Sublist.map _ (List.filter_sublist _))
  refine ⟨?_, ?_, ?_⟩
  · intro l hl hact hdue hfail
    exact expireFold_failed orc now _ hsub (st, 0, 0) l
      (List.mem_filter.mpr ⟨hl, by simp [hact, hdue]⟩) hl hfail
  · intro l hl hact hdue hok
    exact expireFold_success orc now _ hsub (st, 0, 0) l
      (List.mem_filter.mpr ⟨hl, by simp [hact, hdue]⟩) hl hok
  · intro fn hfn
    rcases expireFold_deletedFiles orc now _ (st, 0, 0) fn hfn with h | ⟨l, hl, hf, hc⟩
    · exact Or.inl h
    · obtain ⟨hmem, hp⟩ := List.mem_filter.mp hl
      simp only [Bool.and_eq_true, decide_eq_true_eq] at hp
      exact Or.inr ⟨l, hmem, hp.1, hp.2, hf, hc⟩

/-- Witness for C4: three overdue loans where the second sub-transaction
aborts. -/
theorem C4_expiry_batch_isolation_witness :
    (∀ l ∈ c4State.loans, l.isActive = true → l.dueAt ≤ 0 →
      failSecondOracles.expireStepFails l.id = true →
      l ∈ (expire_loans failSecondOracles c4State 0).1.loans) ∧
    (∀ l ∈ c4State.loans, l.isActive = true → l.dueAt ≤ 0 →
      failSecondOracles.expireStepFails l.id = false →
      ∃ l' ∈ (expire_loans failSecondOracles c4State 0).1.loans,
        l'.id = l.id ∧ l'.isActive = false ∧ l'.returnedAt = some 0) ∧
    (∀ fn, fn ∈ (expire_loans failSecondOracles c4State 0).1.deletedFiles →
      fn ∈ c4State.deletedFiles ∨
      ∃ l ∈ c4State.loans, l.isActive = true ∧ l.dueAt ≤ 0 ∧
        failSecondOracles.expireStepFails l.id = false ∧
        l.circulationFilename = some fn) :=
  C4_expiry_batch_isolation failSecondOracles c4State 0 (by decide)

/-- C5: Waitlist fulfillment for a book (i) notifies at most
`available_copies = max(0, owned_copies − active_loan_count)` patrons,
(ii) changes a waitlist row only by stamping `notified_at` on a pending
entry whose delivery was confirmed, (iii) never notifies an entry while a
strictly older pending entry for the book is left un-notified (ascending
`created_at` order), and (iv) when it stops below the copy ceiling with the
queue non-empty, the entry the NEXT invocation will pop first is exactly one
whose delivery failed (or whose user row is gone) — so the failed entry is
retried before any younger entry. -/
theorem C5_waitlist_fifo (orc : Oracles) (st : LibState) (now : Int) (book : Book)
    (hnodup : (st.waitlist.map WaitlistEntry.id).Nodup) :
    (((process_waitlist orc st now book).2 : Int) ≤
        max 0 (book.available_copies st)) ∧
    (∀ x ∈ (process_waitlist orc st now book).1.waitlist,
      x ∈ st.waitlist ∨
      ∃ e ∈ st.waitlist, x.id = e.id ∧ pendingFor book.id e = true ∧
        orc.sendWaitlist e.userId book.id = true ∧
        x = { e with notifiedAt := some now }) ∧
    (∀ e ∈ st.waitlist, ∀ e2 ∈ st.waitlist,
      pendingFor book.id e = true → pendingFor book.id e2 = true →
      e2.createdAt < e.createdAt →
      notifiedIn (process_waitlist orc st now book).1 e →
      notifiedIn (process_waitlist orc st now book).1 e2) ∧
    (∀ e, nextWaitlistEntry (process_waitlist orc st now book).1 book.id = some e →
      ((process_waitlist orc st now book).2 : Int) <
        max 0 (book.available_copies st) →
      findUser st e.userId = none ∨ orc.sendWaitlist e.userId book.id = false) := by
  unfold process_waitlist
  dsimp only
  by_cases hav : max 0 (book.available_copies st) ≤ 0
  · rw [if_pos hav]
    refine ⟨?_, fun x hx => Or.inl hx, ?_, ?_⟩
    · simp
    · intro e he e2 he2 hp hp2 hlt hnot
      exact waitlistLoop_fifo orc now book 0 st hnodup e he e2 he2 hp hp2 hlt hnot
    · intro e _ hlt
      have hz : max 0 (book.available_copies st) = 0 :=
        le_antisymm hav (le_max_left _ _)
      rw [hz] at hlt
      simp at hlt
  · rw [if_neg hav]
    have hnn : (0 : Int) ≤ book.available_copies st := by
      unfold Book.available_copies
      exact le_max_left _ _
    have hmax0 : max 0 (book.available_copies st) = book.available_copies st :=
      max_eq_right hnn
    have hle_owned : book.available_copies st ≤ max 0 book.ownedCopies := by
      unfold Book.available_copies Book.active_loan_count
      refine max_le_max (le_refl 0) ?_
      have := Int.natCast_nonneg (activeLoanCount st book.id)
      omega
    have hbudget : min (max 0 (book.available_copies st)) (max 0 book.ownedCopies) =
        book.available_copies st := by
      rw [hmax0]
      exact min_eq_left hle_owned
    rw [hbudget]
    have hcast : (((book.available_copies st).toNat : Int)) = book.available_copies st :=
      Int.toNat_of_nonneg hnn
    refine ⟨?_, ?_, ?_, ?_⟩
    · have hk := waitlistLoop_count_le orc now book (book.available_copies st).toNat st
      rw [hmax0]
      calc ((waitlistLoop orc now book (book.available_copies st).toNat st).2 : Int)
          ≤ ((book.available_copies st).toNat : Int) := by exact_mod_cast hk
        _ = book.available_copies st := hcast
    · exact waitlistLoop_changes orc now book _ st hnodup
    · exact waitlistLoop_fifo orc now book _ st hnodup
    · intro e hnext hlt
      rw [hmax0, ← hcast] at hlt
      exact waitlistLoop_stop orc now book _ st (by exact_mod_cast hlt) e hnext

/-- Witness for C5: patrons 1, 2, 3 waitlisted in that order on a title with
two free copies, where notifying patron 2 fails. -/
theorem C5_waitlist_fifo_witness :
    let book3 : Book := { sampleBook with ownedCopies := 3 }
    (((process_waitlist failUser2Oracles c5State 0 book3).2 : Int) ≤
        max 0 (book3.available_copies c5State)) ∧
    (∀ x ∈ (process_waitlist failUser2Oracles c5State 0 book3).1.waitlist,
      x ∈ c5State.waitlist ∨
      ∃ e ∈ c5State.waitlist, x.id = e.id ∧ pendingFor book3.id e = true ∧
        failUser2Oracles.sendWaitlist e.userId book3.id = true ∧
        x = { e with notifiedAt := some 0 }) ∧
    (∀ e ∈ c5State.waitlist, ∀ e2 ∈ c5State.waitlist,
      pendingFor book3.id e = true → pendingFor book3.id e2 = true →
      e2.createdAt < e.createdAt →
      notifiedIn (process_waitlist failUser2Oracles c5State 0 book3).1 e →
      notifiedIn (process_waitlist failUser2Oracles c5State 0 book3).1 e2) ∧
    (∀ e, nextWaitlistEntry (process_waitlist failUser2Oracles c5State 0 book3).1
        book3.id = some e →
      ((process_waitlist failUser2Oracles c5State 0 book3).2 : Int) <
        max 0 (book3.available_copies c5State) →
      findUser c5State e.userId = none ∨
        failUser2Oracles.sendWaitlist e.userId book3.id = false) :=
  C5_waitlist_fifo failUser2Oracles c5State 0
    { sampleBook with ownedCopies := 3 } (by decide)

/-- C6 counterexample: the loan in `c6State` is in the returned terminal
state (`is_active = False`, `invalidated = False`), yet the administrative
invalidation route applies to it with no state guard and moves it to the
invalidated terminal state — so a loan CAN subsequently be placed in a
second terminal state, contradicting the claim's mutual exclusivity over
all operation sequences. -/
theorem C6_counterexample :
    ((findLoan c6State 1).map Loan.isActive = some false ∧
      (findLoan c6State 1).map Loan.invalidated = some false) ∧
    (loan_invalidate okOracles c6State 100 1 "damaged").2 = true ∧
    (findLoan (loan_invalidate okOracles c6State 100 1 "damaged").1 1).map
      Loan.invalidated = some true :=
  ⟨⟨by decide, by decide⟩, by decide, by decide⟩

/-- C6 (amended): returned and expired are terminal with respect to Return,
Renew and the expiry sweep — each rejects or skips a loan that is no longer
active and leaves it unchanged — and under EVERY sequence of circulation
operations an inactive loan never becomes active again and an invalidated
loan stays invalidated.  However, administrative invalidation performs no
state check: it applies to a loan in any state, including one already
returned, expired or invalidated, and always places it in the invalidated
state. -/
theorem C6_amended_terminal_states (cfg : Config) (orc : Oracles) (ops : List Op)
    (st : LibState) (now : Int) (loanId : Nat) (l : Loan) (reason : String)
    (hwf : WFState st)
    (hfind : findLoan st loanId = some l) (hinactive : l.isActive = false)
    (hr1 : ¬pyStrip reason = "") (hr2 : reason.length ≤ 500) :
    return_loan orc st now loanId = (st, some .loanNotActive) ∧
    renew_loan cfg st now loanId = (st, .error .loanNotActive) ∧
    l ∈ (expire_loans orc st now).1.loans ∧
    (∀ l0 ∈ st.loans, ∃ l' ∈ (runOps cfg orc st ops).loans, l'.id = l0.id ∧
      (l0.isActive = false → l'.isActive = false) ∧
      (l0.invalidated = true → l'.invalidated = true)) ∧
    (findLoan (loan_invalidate orc st now loanId reason).1 loanId).map
      Loan.invalidated = some true ∧
    (findLoan (loan_invalidate orc st now loanId reason).1 loanId).map
      Loan.isActive = some false := by
  obtain ⟨hmem, hid⟩ := findLoan_eq_some hfind
  refine ⟨(return_loan_spec orc st now loanId l hfind).1 hinactive,
    (renew_loan_spec cfg st now loanId l hfind).1 hinactive, ?_, ?_, ?_, ?_⟩
  · apply expireFold_untouched orc now _ (st, 0, 0) l hmem
    intro a ha haid
    obtain ⟨hamem, hap⟩ := List.mem_filter.mp ha
    have haeq : a = l := nodup_map_inj hwf.2 hamem hmem haid
    rw [haeq] at hap
    simp [hinactive] at hap
  · exact runOps_tracks cfg orc ops st hwf
  · have hspec := loan_invalidate_spec orc st now loanId l reason hfind hr1 hr2
    rw [findLoan_of_map st _ _ loanId hspec.1
      (fun x => by by_cases hx : x.id = loanId <;> simp [hx]), hfind]
    simp [hid]
  · have hspec := loan_invalidate_spec orc st now loanId l reason hfind hr1 hr2
    rw [findLoan_of_map st _ _ loanId hspec.1
      (fun x => by by_cases hx : x.id = loanId <;> simp [hx]), hfind]
    simp [hid]

/-- Witness for C6 (amended): the returned loan of `c6State` driven through
a renewal attempt, a return attempt, a sweep and the guard-free
invalidation. -/
theorem C6_amended_terminal_states_witness :
    return_loan okOracles c6State 100 1 = (c6State, some .loanNotActive) ∧
    renew_loan defaultConfig c6State 100 1 = (c6State, .error .loanNotActive) ∧
    c6Loan ∈ (expire_loans okOracles c6State 100).1.loans ∧
    (∀ l0 ∈ c6State.loans, ∃ l' ∈
        (runOps defaultConfig okOracles c6State
          [.renewOp 100 1, .returnOp 100 1, .expireOp 100]).loans,
      l'.id = l0.id ∧
      (l0.isActive = false → l'.isActive = false) ∧
      (l0.invalidated = true → l'.invalidated = true)) ∧
    (findLoan (loan_invalidate okOracles c6State 100 1 "damaged").1 1).map
      Loan.invalidated = some true ∧
    (findLoan (loan_invalidate okOracles c6State 100 1 "damaged").1 1).map
      Loan.isActive = some false :=
  C6_amended_terminal_states defaultConfig okOracles
    [.renewOp 100 1, .returnOp 100 1, .expireOp 100] c6State 100 1
    c6Loan "damaged"
    ⟨by decide, by decide⟩ (by decide) (by decide) (by decide) (by decide)

/-- C7: On every successful renewal, the loan's `due_at` becomes the
previous `due_at` plus one loan period (the renewed title's `loan_days` —
not the current time plus a period), `renewal_count` increases by exactly
one, and `reminder_sent` is reset to false; no other loan field changes
(the result is the old row with exactly those three updates), every other
loan row is untouched, and no other table changes. -/
theorem C7_renewal_effect (cfg : Config) (st : LibState) (now : Int) (loanId : Nat)
    (loan : Loan)
    (hfind : findLoan st loanId = some loan)
    (hact : loan.isActive = true) (hinv : loan.invalidated = false)
    (hexp : loan.is_expired now = false) (hmax : loan.renewalCount < loan.maxRenewals) :
    (renew_loan cfg st now loanId).2 = .ok { loan with
      dueAt := loan.dueAt + daysToDelta (loanPeriodDays cfg st loan)
      renewalCount := loan.renewalCount + 1
      reminderSent := false } ∧
    findLoan (renew_loan cfg st now loanId).1 loanId = some { loan with
      dueAt := loan.dueAt + daysToDelta (loanPeriodDays cfg st loan)
      renewalCount := loan.renewalCount + 1
      reminderSent := false } ∧
    (∀ x ∈ st.loans, x.id ≠ loanId → x ∈ (renew_loan cfg st now loanId).1.loans) ∧
    (renew_loan cfg st now loanId).1.books = st.books ∧
    (renew_loan cfg st now loanId).1.users = st.users ∧
    (renew_loan cfg st now loanId).1.waitlist = st.waitlist ∧
    (renew_loan cfg st now loanId).1.deletedFiles = st.deletedFiles := by
  have hid := (findLoan_eq_some hfind).2
  rw [(renew_loan_spec cfg st now loanId loan hfind).2.2.2.2 hact hinv hexp hmax]
  refine ⟨rfl, ?_, ?_, rfl, rfl, rfl, rfl⟩
  · rw [findLoan_setLoan st loanId (fun _ => renewedLoan cfg st loan)
      (fun _ _ => hid), hfind]
    simp [hid, renewedLoan]
  · intro x hx hne
    exact mem_setLoan_of_ne loanId _ hx hne

/-- Witness for C7 at the renewable loan of `c7State`. -/
theorem C7_renewal_effect_witness :
    (renew_loan defaultConfig c7State 0 1).2 = .ok { c7Loan with
      dueAt := c7Loan.dueAt + daysToDelta (loanPeriodDays defaultConfig c7State c7Loan)
      renewalCount := c7Loan.renewalCount + 1
      reminderSent := false } ∧
    findLoan (renew_loan defaultConfig c7State 0 1).1 1 = some { c7Loan with
      dueAt := c7Loan.dueAt + daysToDelta (loanPeriodDays defaultConfig c7State c7Loan)
      renewalCount := c7Loan.renewalCount + 1
      reminderSent := false } ∧
    (∀ x ∈ c7State.loans, x.id ≠ 1 →
      x ∈ (renew_loan defaultConfig c7State 0 1).1.loans) ∧
    (renew_loan defaultConfig c7State 0 1).1.books = c7State.books ∧
    (renew_loan defaultConfig c7State 0 1).1.users = c7State.users ∧
    (renew_loan defaultConfig c7State 0 1).1.waitlist = c7State.waitlist ∧
    (renew_loan defaultConfig c7State 0 1).1.deletedFiles = c7State.deletedFiles :=
  C7_renewal_effect defaultConfig c7State 0 1 c7Loan (by decide) (by decide)
    (by decide) (by decide) (by decide)

/-- C8: `Renew(loan)` is rejected exactly when the loan is not active, or is
invalidated, or is already past due (`is_expired`, i.e. `now ≥ due_at`), or
has `renewal_count ≥ max_renewals`; on any rejection the whole state —
`due_at` of the loan included — is unchanged. -/
theorem C8_renew_rejection (cfg : Config) (st : LibState) (now : Int) (loanId : Nat)
    (loan : Loan) (hfind : findLoan st loanId = some loan) :
    ((∃ e, (renew_loan cfg st now loanId).2 = .error e) ↔
      (loan.isActive = false ∨ loan.invalidated = true ∨
        loan.is_expired now = true ∨ loan.renewalCount ≥ loan.maxRenewals)) ∧
    ∀ e, (renew_loan cfg st now loanId).2 = .error e →
      (renew_loan cfg st now loanId).1 = st := by
  have hspec := renew_loan_spec cfg st now loanId loan hfind
  by_cases hact : loan.isActive = true
  case neg =>
    have hact' : loan.isActive = false := by
      revert hact
      cases loan.isActive <;> simp
    rw [hspec.1 hact']
    exact ⟨⟨fun _ => Or.inl hact', fun _ => ⟨.loanNotActive, rfl⟩⟩, fun e _ => rfl⟩
  case pos =>
    by_cases hinv : loan.invalidated = true
    · rw [hspec.2.1 hact hinv]
      exact ⟨⟨fun _ => Or.inr (Or.inl hinv), fun _ => ⟨.loanInvalidated, rfl⟩⟩,
        fun e _ => rfl⟩
    · have hinv' : loan.invalidated = false := by
        revert hinv
        cases loan.invalidated <;> simp
      by_cases hexp : loan.is_expired now = true
      · rw [hspec.2.2.1 hact hinv' hexp]
        exact ⟨⟨fun _ => Or.inr (Or.inr (Or.inl hexp)), fun _ => ⟨.loanExpired, rfl⟩⟩,
          fun e _ => rfl⟩
      · have hexp' : loan.is_expired now = false := by
          revert hexp
          cases loan.is_expired now <;> simp
        by_cases hmax : loan.renewalCount ≥ loan.maxRenewals
        · rw [hspec.2.2.2.1 hact hinv' hexp' hmax]
          exact ⟨⟨fun _ => Or.inr (Or.inr (Or.inr hmax)),
            fun _ => ⟨.renewalsExhausted, rfl⟩⟩, fun e _ => rfl⟩
        · rw [hspec.2.2.2.2 hact hinv' hexp' (not_le.mp hmax)]
          refine ⟨⟨?_, ?_⟩, ?_⟩
          · rintro ⟨e, he⟩
            cases he
          · intro h
            rcases h with h | h | h | h
            · rw [hact] at h
              cases h
            · rw [hinv'] at h
              cases h
            · rw [hexp'] at h
              cases h
            · exact absurd h hmax
          · intro e he
            cases he

/-- Witness for C8 at the renewal-cap loan of `c8State` (two of two renewals
used). -/
theorem C8_renew_rejection_witness :
    ((∃ e, (renew_loan defaultConfig c8State 0 1).2 = .error e) ↔
      (c8Loan.isActive = false ∨ c8Loan.invalidated = true ∨
        c8Loan.is_expired 0 = true ∨ c8Loan.renewalCount ≥ c8Loan.maxRenewals)) ∧
    ∀ e, (renew_loan defaultConfig c8State 0 1).2 = .error e →
      (renew_loan defaultConfig c8State 0 1).1 = c8State :=
  C8_renew_rejection defaultConfig c8State 0 1 c8Loan (by decide)

/-- C9: `Return(loan)` is rejected with no state change whenever the loan is
not active; consequently, calling Return twice on the same loan leaves the
state exactly as the first call produced it — the second call is rejected
and writes nothing. -/
theorem C9_return_idempotent (orc : Oracles) (st : LibState) (now now2 : Int)
    (loanId : Nat) (loan : Loan) (hfind : findLoan st loanId = some loan) :
    (loan.isActive = false →
      return_loan orc st now loanId = (st, some .loanNotActive)) ∧
    (loan.isActive = true →
      return_loan orc (return_loan orc st now loanId).1 now2 loanId =
        ((return_loan orc st now loanId).1, some .loanNotActive)) := by
  have hspec := return_loan_spec orc st now loanId loan hfind
  refine ⟨hspec.1, ?_⟩
  intro hact
  have hfind1 : findLoan (return_loan orc st now loanId).1 loanId =
      some { loan with isActive := false, returnedAt := some now } := by
    rw [findLoan_of_map st _ _ loanId (hspec.2 hact).1
      (fun x => by by_cases hx : x.id = loanId <;> simp [hx]), hfind]
    simp [(findLoan_eq_some hfind).2]
  exact (return_loan_spec orc _ now2 loanId _ hfind1).1 rfl

/-- Witness for C9: returning the active loan of `c7State`, then returning
it again. -/
theorem C9_return_idempotent_witness :
    (c7Loan.isActive = false →
      return_loan okOracles c7State 0 1 = (c7State, some .loanNotActive)) ∧
    (c7Loan.isActive = true →
      return_loan okOracles (return_loan okOracles c7State 0 1).1 5 1 =
        ((return_loan okOracles c7State 0 1).1, some .loanNotActive)) :=
  C9_return_idempotent okOracles c7State 0 5 1 c7Loan (by decide)

/-- C10: If the book row referenced by a renewable loan (active, not
invalidated, not past due, renewals remaining) no longer exists, `Renew`
still succeeds and extends `due_at` by the configured `DEFAULT_LOAN_DAYS`
(14 when the key is unset) instead of a title-specific loan period. -/
theorem C10_renewal_deleted_book (cfg : Config) (st : LibState) (now : Int)
    (loanId : Nat) (loan : Loan)
    (hfind : findLoan st loanId = some loan)
    (hact : loan.isActive = true) (hinv : loan.invalidated = false)
    (hexp : loan.is_expired now = false) (hmax : loan.renewalCount < loan.maxRenewals)
    (hbook : findBook st loan.bookId = none) :
    (renew_loan cfg st now loanId).2 = .ok { loan with
      dueAt := loan.dueAt + daysToDelta (cfg.defaultLoanDays.getD 14)
      renewalCount := loan.renewalCount + 1
      reminderSent := false } := by
  rw [(renew_loan_spec cfg st now loanId loan hfind).2.2.2.2 hact hinv hexp hmax]
  simp [renewedLoan, loanPeriodDays, hbook]

/-- Witness for C10: renewing the orphaned loan of `c10State` under an empty
config extends by the default 14 days. -/
theorem C10_renewal_deleted_book_witness :
    (renew_loan defaultConfig c10State 0 1).2 = .ok { c10Loan with
      dueAt := c10Loan.dueAt + daysToDelta (defaultConfig.defaultLoanDays.getD 14)
      renewalCount := c10Loan.renewalCount + 1
      reminderSent := false } :=
  C10_renewal_deleted_book defaultConfig c10State 0 1 c10Loan (by decide) (by decide)
    (by decide) (by decide) (by decide) (by decide)

end OratoryLibrary
